import Mathlib

/-!
# Daily Scheduler sync worker: the request router

A shallow embedding of `src/scheduler-sync-worker/src/index.js`, the `fetch` handler of the
worker, together with an in-memory model of the object store binding it talks to
(`env.SCHEDULER_DATA`), and the properties of the handler proved against that embedding.

Conventions of the embedding.

* A JavaScript string is a Lean `String` (well-formed Unicode text). Its JavaScript `length`
  is the number of UTF-16 code units, `jsLength`.
* A JavaScript number is its value as a rational; the handler only ever tests a number for
  being zero.
* `request.url` is represented by its `pathname`, the field `path` of a request, and
  `await request.json()` by its result: the parsed value, or the message of the error it
  throws. The function `pathname` computes that field from the text of the URL.
* The object store is the interface `list`, `put`, `get`: a finite map from keys to stored
  values. A call to it either succeeds or throws an error whose message is the `fault` of the
  bucket; a call that throws leaves the stored objects as they were. Every call is logged.
  One call `list()` returns the objects in key order, at most `listLimit` of them.
* `JSON.stringify v` is kept symbolic as `Body.json v`; a property whose value is `undefined`
  is one that `JSON.stringify` leaves out.
-/

namespace SchedulerSync

/-! ## JavaScript values -/

/-- The JavaScript values the handler meets: `undefined` and the values `JSON.parse` builds. -/
inductive JSValue where
  | undefined
  | null
  | bool (b : Bool)
  | number (x : ℚ)
  | string (s : String)
  | array (items : List JSValue)
  | object (fields : List (String × JSValue))

/-- JavaScript truthiness (`!v` is its negation). -/
def JSValue.truthy : JSValue → Bool
  | .undefined => false
  | .null => false
  | .bool b => b
  | .number x => decide (x ≠ 0)
  | .string s => decide (s ≠ "")
  | .array _ => true
  | .object _ => true

/-- Reading the property `name` of an object literal: its value, or `undefined`. -/
def lookupField (name : String) : List (String × JSValue) → JSValue
  | [] => .undefined
  | (k, v) :: rest => if k = name then v else lookupField name rest

/-- The message of the `TypeError` thrown when `null` or `undefined` is destructured; the
wording stands for that of the engine. -/
def destructureError (name : String) (what : String) : String :=
  "Cannot destructure property " ++ name ++ " of body as it is " ++ what ++ "."

/-- One property read of the destructuring `const { filename, content } = body`: it throws on
`null` and `undefined`; a boolean, a number, a string and an array have neither property;
an object gives the value of its field. -/
def JSValue.getProp (body : JSValue) (name : String) : Except String JSValue :=
  match body with
  | .undefined => .error (destructureError name "undefined")
  | .null => .error (destructureError name "null")
  | .bool _ => .ok .undefined
  | .number _ => .ok .undefined
  | .string _ => .ok .undefined
  | .array _ => .ok .undefined
  | .object fields => .ok (lookupField name fields)

/-- The `length` of a JavaScript string: its number of UTF-16 code units. -/
def jsLength (s : String) : Nat :=
  (s.toList.map fun c => if c.toNat < 65536 then 1 else 2).sum

/-- The property read `content.length`: defined on strings and arrays, `undefined` on the
other values that are neither `null` nor `undefined`. -/
def JSValue.length : JSValue → JSValue
  | .string s => .number (jsLength s)
  | .array items => .number items.length
  | _ => .undefined

/-- The method `path.startsWith(p)`. -/
def startsWith (path p : String) : Bool :=
  p.toList.isPrefixOf path.toList

/-- The method `path.substring(n)`, for a path whose first `n` characters are each one
UTF-16 code unit, as they are after `startsWith` matched the ASCII text `/download/`. -/
def substring (path : String) (n : Nat) : String :=
  String.mk (path.toList.drop n)

/-! ## The object store binding -/

/-- What the store holds under a key: the bytes and the `httpMetadata.contentType` tag. -/
structure StoredValue where
  body : String
  contentType : String
deriving DecidableEq, Repr

/-- The stored objects: a finite map from keys to stored values, each key at most once. -/
abbrev Objects := AList (fun _ : String => StoredValue)

/-- An object as the store returns it from `list` and `get`. -/
structure R2Object where
  key : String
  body : String
  contentType : String
deriving DecidableEq, Repr

/-- A call made on the binding. -/
inductive R2Call where
  | list
  | put (key : String) (value : JSValue) (contentType : String)
  | get (key : String)

/-- The binding `env.SCHEDULER_DATA`: the stored objects, the fault of the store service
(`some m`: a call throws an error with message `m`) and the log of the calls made so far. -/
structure R2Bucket where
  objects : Objects
  fault : Option String
  calls : List R2Call

/-- The result of `list()`. -/
structure R2Objects where
  objects : List R2Object

/-- The message of the `TypeError` of `put` for a value that is not a string; the wording
stands for that of the binding. -/
def putTypeError : String :=
  "Failed to execute put on R2Bucket: parameter 2 is not of a supported type."

/-- The order in which the store lists keys: lexicographic on the UTF-8 bytes, which is the
lexicographic order on the code points. -/
def keyLE : List Char → List Char → Bool
  | [], _ => true
  | _ :: _, [] => false
  | a :: as, b :: bs =>
    if a.toNat < b.toNat then true
    else if b.toNat < a.toNat then false
    else keyLE as bs

/-- The number of objects that one call `list()` without options returns at most. -/
def listLimit : Nat := 1000

/-- The objects that one call `list()` without options returns: the stored objects in key
order, up to the limit of one page. -/
def listing (objects : Objects) : List R2Object :=
  ((objects.entries.map fun e => (⟨e.1, e.2.body, e.2.contentType⟩ : R2Object)).insertionSort
    fun a b => keyLE a.key.toList b.key.toList = true).take listLimit

/-- The call `list()`, made once and without options as the handler makes it: the first page
of the stored objects. -/
def R2Bucket.list (b : R2Bucket) : Except String R2Objects × R2Bucket :=
  let b1 := { b with calls := b.calls ++ [R2Call.list] }
  match b.fault with
  | some m => (.error m, b1)
  | none => (.ok ⟨listing b.objects⟩, b1)

/-- The call `put(key, value, { httpMetadata: { contentType } })`: a string value replaces
whatever was stored under the key; a value that is not a string is refused by the binding. -/
def R2Bucket.put (b : R2Bucket) (key : String) (value : JSValue) (contentType : String) :
    Except String Unit × R2Bucket :=
  let b1 := { b with calls := b.calls ++ [R2Call.put key value contentType] }
  match value with
  | .string s =>
    match b.fault with
    | some m => (.error m, b1)
    | none => (.ok (), { b1 with objects := b.objects.insert key ⟨s, contentType⟩ })
  | _ => (.error putTypeError, b1)

/-- The call `get(key)`: the object stored under exactly that key, or `null`. -/
def R2Bucket.get (b : R2Bucket) (key : String) : Except String (Option R2Object) × R2Bucket :=
  let b1 := { b with calls := b.calls ++ [R2Call.get key] }
  match b.fault with
  | some m => (.error m, b1)
  | none => (.ok ((b.objects.lookup key).map fun v => ⟨key, v.body, v.contentType⟩), b1)

/-! ## Requests and responses -/

/-- An inbound request: `request.method`, the `pathname` of `request.url`, and the result of
`await request.json()`. -/
structure Request where
  method : String
  path : String
  json : Except String JSValue

/-- The environment of the worker. -/
structure Env where
  SCHEDULER_DATA : R2Bucket

/-- The first argument of `new Response`. -/
inductive Body where
  | empty
  | json (v : JSValue)
  | raw (bytes : String)

/-- A response: status (200 when not given), headers, body. -/
structure Response where
  status : Nat
  headers : List (String × String)
  body : Body

/-- The record `corsHeaders`. -/
def corsHeaders : List (String × String) :=
  [("Access-Control-Allow-Origin", "*"),
   ("Access-Control-Allow-Methods", "GET, POST, OPTIONS"),
   ("Access-Control-Allow-Headers", "Content-Type")]

/-- The record `{ ...corsHeaders, 'Content-Type': 'application/json' }`. -/
def jsonHeaders : List (String × String) :=
  corsHeaders ++ [("Content-Type", "application/json")]

/-- The array `allowedFiles` of the upload route. -/
def allowedFiles : List String :=
  ["config.json", "tasks.json", "timer_state.json", "completed_log.json",
   "incomplete_history.json", "daily_stats.json"]

/-- The value `{ error: message }`. -/
def errorBody (message : String) : Body :=
  .json (.object [("error", .string message)])

/-- The object literal of the `GET /` route. -/
def apiDocumentation : JSValue :=
  .object [
    ("service", .string "Daily Scheduler Sync API"),
    ("version", .string "1.0.0"),
    ("endpoints", .object [
      ("GET /list", .string "List all files in bucket"),
      ("POST /upload", .string "Upload JSON file (body: \x7bfilename, content\x7d)"),
      ("GET /download/:filename", .string "Download JSON file from R2")]),
    ("allowed_files", .array [
      .string "config.json", .string "tasks.json", .string "timer_state.json",
      .string "completed_log.json", .string "incomplete_history.json",
      .string "daily_stats.json"])]

/-! ## The handler -/

/-- The route `GET /list`. -/
def listRoute (env : Env) : Except String Response × R2Bucket :=
  match env.SCHEDULER_DATA.list with
  | (.error m, b) => (.error m, b)
  | (.ok list, b) =>
    (.ok ⟨200, jsonHeaders, .json (.object [
        ("files", .array (list.objects.map fun obj => .string obj.key)),
        ("count", .number list.objects.length)])⟩, b)

/-- The part of the route `POST /upload` after the destructuring of the body. -/
def uploadFields (filename content : JSValue) (env : Env) : Except String Response × R2Bucket :=
  if !filename.truthy || !content.truthy then
    (.ok ⟨400, jsonHeaders, errorBody "Missing filename or content"⟩, env.SCHEDULER_DATA)
  else
    match filename with
    | .string name =>
      if allowedFiles.contains name then
        match env.SCHEDULER_DATA.put name content "application/json" with
        | (.error m, b) => (.error m, b)
        | (.ok _, b) =>
          (.ok ⟨200, jsonHeaders, .json (.object [
              ("success", .bool true),
              ("filename", filename),
              ("size", content.length)])⟩, b)
      else
        (.ok ⟨400, jsonHeaders,
          errorBody "Invalid filename. Only scheduler JSON files allowed."⟩, env.SCHEDULER_DATA)
    | _ =>
      (.ok ⟨400, jsonHeaders,
        errorBody "Invalid filename. Only scheduler JSON files allowed."⟩, env.SCHEDULER_DATA)

/-- The route `POST /upload`. -/
def uploadRoute (request : Request) (env : Env) : Except String Response × R2Bucket :=
  match request.json with
  | .error m => (.error m, env.SCHEDULER_DATA)
  | .ok body =>
    match body.getProp "filename", body.getProp "content" with
    | .error m, _ => (.error m, env.SCHEDULER_DATA)
    | .ok _, .error m => (.error m, env.SCHEDULER_DATA)
    | .ok filename, .ok content => uploadFields filename content env

/-- The route `GET /download/:filename`. -/
def downloadRoute (path : String) (env : Env) : Except String Response × R2Bucket :=
  let filename := substring path "/download/".length
  match env.SCHEDULER_DATA.get filename with
  | (.error m, b) => (.error m, b)
  | (.ok none, b) => (.ok ⟨404, jsonHeaders, errorBody "File not found"⟩, b)
  | (.ok (some object), b) => (.ok ⟨200, jsonHeaders, .raw object.body⟩, b)

/-- The `try` block of `fetch`: the response it returns or the message of the error it
throws, and the bucket afterwards. -/
def dispatch (request : Request) (env : Env) : Except String Response × R2Bucket :=
  let path := request.path
  if path = "/list" ∧ request.method = "GET" then
    listRoute env
  else if path = "/upload" ∧ request.method = "POST" then
    uploadRoute request env
  else if startsWith path "/download/" ∧ request.method = "GET" then
    downloadRoute path env
  else if path = "/" ∧ request.method = "GET" then
    (.ok ⟨200, jsonHeaders, .json apiDocumentation⟩, env.SCHEDULER_DATA)
  else
    (.ok ⟨404, jsonHeaders, errorBody "Not found"⟩, env.SCHEDULER_DATA)

/-- The handler `fetch(request, env, ctx)`: the response and the bucket afterwards. -/
def fetch (request : Request) (env : Env) : Response × R2Bucket :=
  if request.method = "OPTIONS" then
    (⟨200, corsHeaders, .empty⟩, env.SCHEDULER_DATA)
  else
    match dispatch request env with
    | (.ok response, b) => (response, b)
    | (.error message, b) => (⟨500, jsonHeaders, errorBody message⟩, b)

/-- Handling requests one after another, starting from the stored objects `objects`; each
request comes with the fault of the store service at the time it is handled. -/
def serve (objects : Objects) : List (Request × Option String) → Objects
  | [] => objects
  | (request, fault) :: rest => serve (fetch request ⟨⟨objects, fault, []⟩⟩).2.objects rest

/-- The request `POST /upload` with the JSON body `{ filename, content }`. -/
def uploadRequest (filename content : String) : Request :=
  ⟨"POST", "/upload", .ok (.object [("filename", .string filename), ("content", .string content)])⟩

/-- The request `GET path`; it has no body, so that reading it as JSON throws. -/
def getRequest (path : String) : Request :=
  ⟨"GET", path, .error "Unexpected end of JSON input"⟩

/-- Reading a request as an upload: the `filename` and `content` of a `POST /upload` whose
JSON body carries both as strings. -/
def uploadOf (request : Request) : Option (String × String) :=
  if request.method = "POST" ∧ request.path = "/upload" then
    match request.json with
    | .ok body =>
      match body.getProp "filename", body.getProp "content" with
      | .ok (.string f), .ok (.string c) => some (f, c)
      | _, _ => none
    | .error _ => none
  else none

/-- The array `files` of the body of a response, as `GET /list` renders it (empty when the
body has none). -/
def filesOf (response : Response) : List String :=
  match response.body with
  | .json (.object fields) =>
    match lookupField "files" fields with
    | .array items => items.filterMap fun item =>
        match item with
        | .string s => some s
        | _ => none
    | _ => []
  | _ => []

/-- The stored objects with which the rejected upload of `evil.json` is tried: the store
already holds an object under that key, written by another tool. -/
def foreignObjects : Objects :=
  (∅ : Objects).insert "evil.json" ⟨"[]", "text/plain"⟩

/-- The key of the object number `i` of `crowdedObjects`: the letter `k`, `i + 1` times. -/
def crowdedKey (i : Nat) : String :=
  String.mk (List.replicate (i + 1) 'k')

/-- A store that holds 1001 objects, one more than a page of `list()`. -/
def crowdedObjects : Objects :=
  ⟨(List.range 1001).map fun i => ⟨crowdedKey i, ⟨"[]", "application/json"⟩⟩, by
    rw [List.NodupKeys, List.keys, List.map_map]
    refine List.Nodup.map ?_ (List.nodup_range 1001)
    intro i j hij
    have hlen := congrArg String.length hij
    simp only [Function.comp_apply, crowdedKey, String.length, List.length_replicate] at hlen
    omega⟩

/-- The keys that one call `list()` returns. -/
def listedKeys (objects : Objects) : List String :=
  (listing objects).map fun obj => obj.key

/-- Whether the request is a `POST /upload` that passes both checks of the upload route: the
presence check on `filename` and `content`, and the allow-list check on `filename`. -/
def passesValidation (request : Request) : Bool :=
  decide (request.method = "POST") && decide (request.path = "/upload") &&
    match request.json with
    | .ok body =>
      match body.getProp "filename", body.getProp "content" with
      | .ok filename, .ok content =>
        filename.truthy && content.truthy &&
          match filename with
          | .string name => allowedFiles.contains name
          | _ => false
      | _, _ => false
    | .error _ => false

/-- The array `allowed_files` of the body of a response, as `GET /` renders it (empty when
the body has none). -/
def advertisedFiles (response : Response) : List String :=
  match response.body with
  | .json (.object fields) =>
    match lookupField "allowed_files" fields with
    | .array items => items.filterMap fun item =>
        match item with
        | .string s => some s
        | _ => none
    | _ => []
  | _ => []

/-- The object `endpoints` of the body of a response, as `GET /` renders it (empty when the
body has none). -/
def endpointsOf (response : Response) : List (String × JSValue) :=
  match response.body with
  | .json (.object fields) =>
    match lookupField "endpoints" fields with
    | .object endpoints => endpoints
    | _ => []
  | _ => []

/-- The request `POST /upload` whose JSON body is `null`. -/
def nullUpload : Request :=
  ⟨"POST", "/upload", .ok .null⟩

/-! ## The pathname of a request URL

`new URL(request.url).pathname`, for the `http` and `https` URLs a worker receives, as the
URL standard computes it from the text of the URL that follows the host and the port. -/

/-- The path percent-encode set of the URL standard: the C0 controls, the code points above
U+007E, and U+0020 (space), U+0022, U+0023, U+003C, U+003E, U+003F, U+005E, U+0060, U+007B
and U+007D. -/
def inPathPercentEncodeSet (c : Char) : Bool :=
  decide (c.toNat ≤ 31) || decide (126 < c.toNat) ||
    [32, 34, 35, 60, 62, 63, 94, 96, 123, 125].contains c.toNat

/-- The UTF-8 bytes of the code point `n`. -/
def utf8Bytes (n : Nat) : List Nat :=
  if n < 128 then [n]
  else if n < 2048 then [192 + n / 64, 128 + n % 64]
  else if n < 65536 then [224 + n / 4096, 128 + n / 64 % 64, 128 + n % 64]
  else [240 + n / 262144, 128 + n / 4096 % 64, 128 + n / 64 % 64, 128 + n % 64]

/-- The upper-case hexadecimal digit of `d`, for `d` below 16. -/
def hexDigit (d : Nat) : Char :=
  Char.ofNat (if d < 10 then 48 + d else 55 + d)

/-- UTF-8 percent-encoding of one code point with the path percent-encode set: a code point of
the set becomes `%XX` for each of its bytes, any other code point stays as it is. -/
def percentEncode (c : Char) : List Char :=
  if inPathPercentEncodeSet c then
    (utf8Bytes c.toNat).flatMap fun b => ['%', hexDigit (b / 16), hexDigit (b % 16)]
  else [c]

/-- A single-dot path segment: `.` or `%2e`, in either case of the letter. -/
def isSingleDot (segment : List Char) : Bool :=
  [".", "%2e", "%2E"].contains (String.mk segment)

/-- A double-dot path segment: `..`, `.%2e`, `%2e.` or `%2e%2e`, in either case of the
letters. -/
def isDoubleDot (segment : List Char) : Bool :=
  ["..", ".%2e", ".%2E", "%2e.", "%2E.", "%2e%2e", "%2e%2E", "%2E%2e", "%2E%2E"].contains
    (String.mk segment)

/-- The end of a segment in the path state: `buffer` is the segment read, and `slash` tells
whether it was ended by a slash (or backslash) rather than by the end of the path. A
double-dot segment removes the last segment of the path, a single-dot segment is dropped, and
both leave an empty last segment at the end of the path. -/
def closeSegment (path : List (List Char)) (buffer : List Char) (slash : Bool) :
    List (List Char) :=
  if isDoubleDot buffer then
    if slash then path.dropLast else path.dropLast ++ [[]]
  else if isSingleDot buffer then
    if slash then path else path ++ [[]]
  else path ++ [buffer]

/-- The path state of the URL parser: U+002F (slash) and U+005C (backslash) end a segment,
U+003F and U+0023 end the path (the query or the fragment starts), any other code point is
percent-encoded into the current segment. -/
def pathState (path : List (List Char)) (buffer : List Char) : List Char → List (List Char)
  | [] => closeSegment path buffer false
  | c :: rest =>
    if c.toNat = 47 ∨ c.toNat = 92 then pathState (closeSegment path buffer true) [] rest
    else if c.toNat = 63 ∨ c.toNat = 35 then closeSegment path buffer false
    else pathState path (buffer ++ percentEncode c) rest

/-- The `pathname` of the URL whose text after the host and the port is `target`: trailing C0
controls and spaces are stripped, tabs and newlines removed, the path is parsed, and each
segment is written after a slash. -/
def pathname (target : String) : String :=
  let trimmed := (target.toList.reverse.dropWhile fun c => decide (c.toNat ≤ 32)).reverse
  let input := trimmed.filter fun c => !decide (c.toNat = 9 ∨ c.toNat = 10 ∨ c.toNat = 13)
  let start :=
    match input with
    | [] => []
    | c :: rest => if c.toNat = 47 ∨ c.toNat = 92 then rest else input
  String.mk ((pathState [] [] start).flatMap fun segment => '/' :: segment)

/-- A store that holds an object under the key `a b`, written by another tool. -/
def spacedObjects : Objects :=
  (∅ : Objects).insert "a b" ⟨"[]", "application/json"⟩

/-! ## Basic facts about the store binding and the routes -/

theorem allowed_ne_empty {f : String} (h : f ∈ allowedFiles) : f ≠ "" := by
  rintro rfl
  revert h
  decide

theorem list_objects (b : R2Bucket) : b.list.2.objects = b.objects := by
  unfold R2Bucket.list
  cases b.fault <;> rfl

theorem get_objects (b : R2Bucket) (key : String) : (b.get key).2.objects = b.objects := by
  unfold R2Bucket.get
  cases b.fault <;> rfl

theorem put_objects (b : R2Bucket) (key : String) (value : JSValue) (ct : String) :
    (b.put key value ct).2.objects = b.objects ∨
      ∃ s, (b.put key value ct).2.objects = b.objects.insert key ⟨s, ct⟩ := by
  unfold R2Bucket.put
  cases value <;> simp
  cases b.fault <;> simp
  exact Or.inr ⟨_, rfl⟩

theorem listRoute_objects (env : Env) :
    (listRoute env).2.objects = env.SCHEDULER_DATA.objects := by
  have h := list_objects env.SCHEDULER_DATA
  unfold listRoute
  split <;> simp_all

theorem downloadRoute_objects (path : String) (env : Env) :
    (downloadRoute path env).2.objects = env.SCHEDULER_DATA.objects := by
  have h := get_objects env.SCHEDULER_DATA (substring path "/download/".length)
  unfold downloadRoute
  simp only []
  split <;> simp_all

theorem uploadFields_objects (filename content : JSValue) (env : Env) :
    (uploadFields filename content env).2.objects = env.SCHEDULER_DATA.objects ∨
      ∃ name s, name ∈ allowedFiles ∧
        (uploadFields filename content env).2.objects =
          env.SCHEDULER_DATA.objects.insert name ⟨s, "application/json"⟩ := by
  unfold uploadFields
  split
  · exact Or.inl rfl
  · split
    · next name _ =>
      split
      · next hin =>
        have hmem : name ∈ allowedFiles := by simpa using hin
        rcases put_objects env.SCHEDULER_DATA name content "application/json" with h | ⟨s, h⟩
        · left
          split <;> simp_all
        · right
          refine ⟨name, s, hmem, ?_⟩
          split <;> simp_all
      · exact Or.inl rfl
    · exact Or.inl rfl

theorem uploadRoute_objects (request : Request) (env : Env) :
    (uploadRoute request env).2.objects = env.SCHEDULER_DATA.objects ∨
      ∃ name s, name ∈ allowedFiles ∧
        (uploadRoute request env).2.objects =
          env.SCHEDULER_DATA.objects.insert name ⟨s, "application/json"⟩ := by
  unfold uploadRoute
  split
  · exact Or.inl rfl
  · split
    · exact Or.inl rfl
    · exact Or.inl rfl
    · exact uploadFields_objects _ _ env

theorem dispatch_objects (request : Request) (env : Env) :
    (dispatch request env).2.objects = env.SCHEDULER_DATA.objects ∨
      ∃ name s, name ∈ allowedFiles ∧
        (dispatch request env).2.objects =
          env.SCHEDULER_DATA.objects.insert name ⟨s, "application/json"⟩ := by
  unfold dispatch
  simp only []
  split
  · exact Or.inl (listRoute_objects env)
  · split
    · exact uploadRoute_objects request env
    · split
      · exact Or.inl (downloadRoute_objects _ env)
      · split <;> exact Or.inl rfl

/-- A request leaves the stored objects as they were, or writes one allow-listed key with the
JSON content type. -/
theorem fetch_objects (request : Request) (env : Env) :
    (fetch request env).2.objects = env.SCHEDULER_DATA.objects ∨
      ∃ name s, name ∈ allowedFiles ∧
        (fetch request env).2.objects =
          env.SCHEDULER_DATA.objects.insert name ⟨s, "application/json"⟩ := by
  unfold fetch
  split
  · exact Or.inl rfl
  · rcases dispatch_objects request env with h | ⟨name, s, hmem, h⟩
    · left
      split <;> simp_all
    · right
      refine ⟨name, s, hmem, ?_⟩
      split <;> simp_all

theorem uploadOf_eq_some {request : Request} {f c : String}
    (h : uploadOf request = some (f, c)) :
    request.method = "POST" ∧ request.path = "/upload" ∧
      ∃ body, request.json = .ok body ∧ body.getProp "filename" = .ok (.string f) ∧
        body.getProp "content" = .ok (.string c) := by
  unfold uploadOf at h
  split at h
  · next hmp =>
    refine ⟨hmp.1, hmp.2, ?_⟩
    split at h
    · next body hj =>
      refine ⟨body, hj, ?_⟩
      split at h
      · next f0 c0 hf hc =>
        simp only [Option.some.injEq, Prod.mk.injEq] at h
        obtain ⟨rfl, rfl⟩ := h
        exact ⟨hf, hc⟩
      · exact absurd h (by simp)
    · exact absurd h (by simp)
  · exact absurd h (by simp)

/-- An upload request is handled by the field checks of the upload route, inside the `try`. -/
theorem fetch_of_upload {request : Request} {f c : String}
    (h : uploadOf request = some (f, c)) (env : Env) :
    fetch request env =
      match uploadFields (.string f) (.string c) env with
      | (.ok response, b) => (response, b)
      | (.error message, b) => (⟨500, jsonHeaders, errorBody message⟩, b) := by
  obtain ⟨hm, hp, body, hj, hf, hc⟩ := uploadOf_eq_some h
  unfold fetch dispatch uploadRoute
  simp [hm, hp, hj, hf, hc]

/-- The field checks accept an allow-listed name with a non-empty text, and write it. -/
theorem uploadFields_accept {f c : String} (hf : f ∈ allowedFiles) (hc : c ≠ "") (env : Env)
    (h0 : env.SCHEDULER_DATA.fault = none) :
    uploadFields (.string f) (.string c) env =
      (.ok ⟨200, jsonHeaders, .json (.object [
          ("success", .bool true),
          ("filename", .string f),
          ("size", .number (jsLength c))])⟩,
        { env.SCHEDULER_DATA with
          objects := env.SCHEDULER_DATA.objects.insert f ⟨c, "application/json"⟩
          calls := env.SCHEDULER_DATA.calls ++ [R2Call.put f (.string c) "application/json"] }) := by
  have hf0 := allowed_ne_empty hf
  simp [uploadFields, JSValue.truthy, hf0, hc, hf, R2Bucket.put, h0, JSValue.length]

/-- An accepted upload on a store that does not fail: the success response, and the bucket
with the object written and the call logged. -/
theorem fetch_upload_accept {request : Request} {f c : String}
    (h : uploadOf request = some (f, c)) (hf : f ∈ allowedFiles) (hc : c ≠ "") (env : Env)
    (h0 : env.SCHEDULER_DATA.fault = none) :
    fetch request env =
      (⟨200, jsonHeaders, .json (.object [
          ("success", .bool true),
          ("filename", .string f),
          ("size", .number (jsLength c))])⟩,
        { env.SCHEDULER_DATA with
          objects := env.SCHEDULER_DATA.objects.insert f ⟨c, "application/json"⟩
          calls := env.SCHEDULER_DATA.calls ++ [R2Call.put f (.string c) "application/json"] }) := by
  rw [fetch_of_upload h env, uploadFields_accept hf hc env h0]

/-- The field checks refuse a non-empty name outside the allow-list, without a store call. -/
theorem uploadFields_reject {f c : String} (hf0 : f ≠ "") (hf : f ∉ allowedFiles) (hc : c ≠ "")
    (env : Env) :
    uploadFields (.string f) (.string c) env =
      (.ok ⟨400, jsonHeaders, errorBody "Invalid filename. Only scheduler JSON files allowed."⟩,
        env.SCHEDULER_DATA) := by
  simp [uploadFields, JSValue.truthy, hf0, hc, hf]

theorem listedKeys_subperm (objects : Objects) : (listedKeys objects).Subperm objects.keys := by
  unfold listedKeys listing
  have hsub := (List.take_sublist listLimit
    ((objects.entries.map fun e => (⟨e.1, e.2.body, e.2.contentType⟩ : R2Object)).insertionSort
      fun a b => keyLE a.key.toList b.key.toList = true)).map fun obj => obj.key
  have hperm := (List.perm_insertionSort (fun a b : R2Object => keyLE a.key.toList b.key.toList = true)
    (objects.entries.map fun e => (⟨e.1, e.2.body, e.2.contentType⟩ : R2Object))).map
      fun obj => obj.key
  have hkeys : ((objects.entries.map fun e => (⟨e.1, e.2.body, e.2.contentType⟩ : R2Object)).map
      fun obj => obj.key) = objects.keys := by
    simp [AList.keys, List.keys, Function.comp_def]
  rw [hkeys] at hperm
  exact hsub.subperm.trans hperm.subperm

theorem listedKeys_subset (objects : Objects) : listedKeys objects ⊆ objects.keys :=
  (listedKeys_subperm objects).subset

theorem listedKeys_length (objects : Objects) :
    (listedKeys objects).length = min listLimit objects.keys.length := by
  simp [listedKeys, listing, List.length_insertionSort, AList.keys, List.keys]

/-- A store within the limit of one page is listed whole. -/
theorem listedKeys_perm {objects : Objects} (h : objects.keys.length ≤ listLimit) :
    (listedKeys objects).Perm objects.keys := by
  apply (listedKeys_subperm objects).perm_of_length_le
  rw [listedKeys_length]
  exact le_min h (le_refl _)

/-- The list route on a store that does not fail: the keys of the first page of the store and
their number. -/
theorem fetch_list {request : Request} (hm : request.method = "GET")
    (hp : request.path = "/list") (env : Env) (h0 : env.SCHEDULER_DATA.fault = none) :
    fetch request env =
      (⟨200, jsonHeaders, .json (.object [
          ("files", .array ((listedKeys env.SCHEDULER_DATA.objects).map JSValue.string)),
          ("count", .number (listedKeys env.SCHEDULER_DATA.objects).length)])⟩,
        { env.SCHEDULER_DATA with calls := env.SCHEDULER_DATA.calls ++ [R2Call.list] }) := by
  unfold fetch dispatch listRoute R2Bucket.list
  simp [hm, hp, h0, listedKeys, Function.comp_def]

/-- The list route on a store that fails with message `m`. -/
theorem fetch_list_fault {request : Request} (hm : request.method = "GET")
    (hp : request.path = "/list") (env : Env) (m : String)
    (h0 : env.SCHEDULER_DATA.fault = some m) :
    fetch request env =
      (⟨500, jsonHeaders, errorBody m⟩,
        { env.SCHEDULER_DATA with calls := env.SCHEDULER_DATA.calls ++ [R2Call.list] }) := by
  unfold fetch dispatch listRoute R2Bucket.list
  simp [hm, hp, h0]

theorem filesOf_list (keys : List String) (n : ℚ) :
    filesOf ⟨200, jsonHeaders, .json (.object [
        ("files", .array (keys.map JSValue.string)), ("count", .number n)])⟩ = keys := by
  simp [filesOf, lookupField, List.filterMap_map, Function.comp_def]

theorem keys_after_fetch (request : Request) (env : Env) (k : String)
    (hk : k ∈ (fetch request env).2.objects.keys) :
    k ∈ env.SCHEDULER_DATA.objects.keys ∨ k ∈ allowedFiles := by
  rcases fetch_objects request env with h | ⟨name, s, hmem, h⟩
  · exact Or.inl (h ▸ hk)
  · rw [h, ← AList.mem_keys, AList.mem_insert] at hk
    rcases hk with rfl | hk
    · exact Or.inr hmem
    · exact Or.inl (AList.mem_keys.mp hk)

theorem serve_keys (steps : List (Request × Option String)) :
    ∀ objects : Objects, (∀ k ∈ objects.keys, k ∈ allowedFiles) →
      ∀ k ∈ (serve objects steps).keys, k ∈ allowedFiles := by
  induction steps with
  | nil => intro objects h k hk; exact h k hk
  | cons step rest ih =>
    intro objects h k hk
    obtain ⟨request, fault⟩ := step
    refine ih _ ?_ k hk
    intro k1 hk1
    rcases keys_after_fetch request ⟨⟨objects, fault, []⟩⟩ k1 hk1 with h1 | h1
    · exact h k1 h1
    · exact h1

theorem startsWith_download (filename : String) :
    startsWith ("/download/" ++ filename) "/download/" = true := by
  simp [startsWith, String.toList]

theorem substring_download (filename : String) :
    substring ("/download/" ++ filename) "/download/".length = filename := by
  have h : "/download/".length = "/download/".toList.length := rfl
  rw [substring, h]
  simp [String.toList]

theorem startsWith_ne_list {path : String} (h : startsWith path "/download/" = true) :
    path ≠ "/list" := by
  rintro rfl
  revert h
  decide

/-- The download route on a store that does not fail: an exact lookup of the remainder of the
path. -/
theorem fetch_download {request : Request} (hm : request.method = "GET")
    (hp : startsWith request.path "/download/" = true) (env : Env)
    (h0 : env.SCHEDULER_DATA.fault = none) :
    fetch request env =
      (match env.SCHEDULER_DATA.objects.lookup (substring request.path "/download/".length) with
        | none => ⟨404, jsonHeaders, errorBody "File not found"⟩
        | some v => ⟨200, jsonHeaders, .raw v.body⟩,
        { env.SCHEDULER_DATA with
          calls := env.SCHEDULER_DATA.calls ++
            [R2Call.get (substring request.path "/download/".length)] }) := by
  have hl := startsWith_ne_list hp
  unfold fetch dispatch downloadRoute R2Bucket.get
  simp only [hm, hp, h0, hl]
  cases env.SCHEDULER_DATA.objects.lookup (substring request.path "/download/".length) <;>
    simp

theorem listRoute_headers (env : Env) (r : Response) (h : (listRoute env).1 = .ok r) :
    r.headers = jsonHeaders := by
  unfold listRoute at h
  split at h
  · simp at h
  · simp at h
    rw [← h]

theorem uploadRoute_headers (request : Request) (env : Env) (r : Response)
    (h : (uploadRoute request env).1 = .ok r) : r.headers = jsonHeaders := by
  unfold uploadRoute at h
  split at h
  · simp at h
  · split at h
    · simp at h
    · simp at h
    · unfold uploadFields at h
      split at h
      · simp at h
        rw [← h]
      · split at h
        · split at h
          · split at h
            · simp at h
            · simp at h
              rw [← h]
          · simp at h
            rw [← h]
        · simp at h
          rw [← h]

theorem downloadRoute_headers (path : String) (env : Env) (r : Response)
    (h : (downloadRoute path env).1 = .ok r) : r.headers = jsonHeaders := by
  unfold downloadRoute at h
  simp only [] at h
  split at h
  · simp at h
  · simp at h
    rw [← h]
  · simp at h
    rw [← h]

theorem dispatch_headers (request : Request) (env : Env) (r : Response)
    (h : (dispatch request env).1 = .ok r) : r.headers = jsonHeaders := by
  unfold dispatch at h
  simp only [] at h
  split at h
  · exact listRoute_headers env r h
  · split at h
    · exact uploadRoute_headers request env r h
    · split at h
      · exact downloadRoute_headers _ env r h
      · split at h
        · simp at h
          rw [← h]
        · simp at h
          rw [← h]

/-- Every response carries `corsHeaders` alone (the preflight) or `jsonHeaders`. -/
theorem fetch_headers (request : Request) (env : Env) :
    (fetch request env).1.headers = corsHeaders ∨
      (fetch request env).1.headers = jsonHeaders := by
  unfold fetch
  split
  · exact Or.inl rfl
  · right
    split
    · next response b heq =>
      exact dispatch_headers request env response (by rw [heq])
    · rfl

/-- Uploading pairwise distinct allow-listed names, none of which the store holds, on a store
that does not fail: the keys afterwards are those names together with the former keys. -/
theorem serve_uploads_keys {uploads : List Request} {names : List String}
    (hup : List.Forall₂
      (fun r f => ∃ c, uploadOf r = some (f, c) ∧ f ∈ allowedFiles ∧ c ≠ "") uploads names) :
    ∀ objects : Objects, names.Nodup → (∀ f ∈ names, f ∉ objects.keys) →
      (serve objects (uploads.map fun r => (r, none))).keys.Perm (names ++ objects.keys) := by
  induction hup with
  | nil => intro objects _ _; exact List.Perm.refl _
  | @cons r f rs fs hrf _ ih =>
    intro objects hnodup hfresh
    obtain ⟨c, hu, hf, hc⟩ := hrf
    have hstep : (fetch r ⟨⟨objects, none, []⟩⟩).2.objects =
        objects.insert f ⟨c, "application/json"⟩ := by
      rw [fetch_upload_accept hu hf hc ⟨⟨objects, none, []⟩⟩ rfl]
    have hkeys : (objects.insert f ⟨c, "application/json"⟩).keys = f :: objects.keys := by
      rw [AList.keys_insert, List.erase_of_not_mem (hfresh f (List.mem_cons_self f fs))]
    rw [List.nodup_cons] at hnodup
    have hrest := ih (objects.insert f ⟨c, "application/json"⟩) hnodup.2 (by
      intro g hg
      rw [hkeys, List.mem_cons, not_or]
      exact ⟨fun hgf => hnodup.1 (hgf ▸ hg), hfresh g (List.mem_cons_of_mem f hg)⟩)
    simp only [List.map_cons, serve, hstep]
    rw [hkeys] at hrest
    exact hrest.trans (List.perm_middle)

theorem uploads_names_allowed {uploads : List Request} {names : List String}
    (hup : List.Forall₂
      (fun r f => ∃ c, uploadOf r = some (f, c) ∧ f ∈ allowedFiles ∧ c ≠ "") uploads names) :
    ∀ f ∈ names, f ∈ allowedFiles := by
  induction hup with
  | nil => intro f hf; exact absurd hf (List.not_mem_nil f)
  | @cons r g rs gs hrg _ ih =>
    intro f hf
    rcases List.mem_cons.mp hf with rfl | hf
    · obtain ⟨c, _, hmem, _⟩ := hrg
      exact hmem
    · exact ih f hf

/-! ## The routes, one by one -/

/-- The preflight: answered before the `try`, without touching the bucket. -/
theorem fetch_options {request : Request} (hm : request.method = "OPTIONS") (env : Env) :
    fetch request env = (⟨200, corsHeaders, .empty⟩, env.SCHEDULER_DATA) := by
  unfold fetch
  simp [hm]

/-- The documentation route. -/
theorem fetch_root {request : Request} (hm : request.method = "GET")
    (hp : request.path = "/") (env : Env) :
    fetch request env = (⟨200, jsonHeaders, .json apiDocumentation⟩, env.SCHEDULER_DATA) := by
  unfold fetch dispatch
  simp [hm, hp, startsWith]

/-- The fall-through of the `try` block. -/
theorem fetch_not_found {request : Request} (h0 : request.method ≠ "OPTIONS")
    (h1 : ¬(request.path = "/list" ∧ request.method = "GET"))
    (h2 : ¬(request.path = "/upload" ∧ request.method = "POST"))
    (h3 : ¬(startsWith request.path "/download/" = true ∧ request.method = "GET"))
    (h4 : ¬(request.path = "/" ∧ request.method = "GET")) (env : Env) :
    fetch request env = (⟨404, jsonHeaders, errorBody "Not found"⟩, env.SCHEDULER_DATA) := by
  unfold fetch dispatch
  simp only [h0, h1, h2, h3, h4, if_false]

/-- The download route on a store that fails with message `m`. -/
theorem fetch_download_fault {request : Request} (hm : request.method = "GET")
    (hp : startsWith request.path "/download/" = true) (env : Env) (m : String)
    (h0 : env.SCHEDULER_DATA.fault = some m) :
    fetch request env =
      (⟨500, jsonHeaders, errorBody m⟩,
        { env.SCHEDULER_DATA with
          calls := env.SCHEDULER_DATA.calls ++
            [R2Call.get (substring request.path "/download/".length)] }) := by
  have hl := startsWith_ne_list hp
  unfold fetch dispatch downloadRoute R2Bucket.get
  simp [hm, hp, h0, hl]

/-- The upload route when reading the body as JSON throws with message `m`. -/
theorem fetch_upload_parse_error {request : Request} (hm : request.method = "POST")
    (hp : request.path = "/upload") (m : String) (hj : request.json = .error m) (env : Env) :
    fetch request env = (⟨500, jsonHeaders, errorBody m⟩, env.SCHEDULER_DATA) := by
  unfold fetch dispatch uploadRoute
  simp [hm, hp, hj]

/-- An upload request whose body destructures is handled by the field checks. -/
theorem fetch_upload_fields {request : Request} (hm : request.method = "POST")
    (hp : request.path = "/upload") {body filename content : JSValue}
    (hj : request.json = .ok body) (hf : body.getProp "filename" = .ok filename)
    (hc : body.getProp "content" = .ok content) (env : Env) :
    fetch request env =
      match uploadFields filename content env with
      | (.ok response, b) => (response, b)
      | (.error message, b) => (⟨500, jsonHeaders, errorBody message⟩, b) := by
  unfold fetch dispatch uploadRoute
  simp [hm, hp, hj, hf, hc]

/-- An accepted upload on a store that fails with message `m`. -/
theorem fetch_upload_put_fault {request : Request} {f c : String}
    (h : uploadOf request = some (f, c)) (hf : f ∈ allowedFiles) (hc : c ≠ "") (env : Env)
    (m : String) (h0 : env.SCHEDULER_DATA.fault = some m) :
    fetch request env =
      (⟨500, jsonHeaders, errorBody m⟩,
        { env.SCHEDULER_DATA with
          calls := env.SCHEDULER_DATA.calls ++ [R2Call.put f (.string c) "application/json"] }) := by
  have hf0 := allowed_ne_empty hf
  rw [fetch_of_upload h env]
  simp [uploadFields, JSValue.truthy, hf0, hc, hf, R2Bucket.put, h0]

/-- The field checks, once passed, make exactly the call `put`. -/
theorem uploadFields_calls {f : String} {content : JSValue} (hf : f ∈ allowedFiles)
    (hc : content.truthy = true) (env : Env) :
    (uploadFields (.string f) content env).2.calls =
      env.SCHEDULER_DATA.calls ++ [R2Call.put f content "application/json"] := by
  have hf0 := allowed_ne_empty hf
  have hs : (JSValue.string f).truthy = true := by simp [JSValue.truthy, hf0]
  have hcond : ¬((!(JSValue.string f).truthy || !content.truthy) = true) := by
    simp [hs, hc]
  have hin : allowedFiles.contains f = true := by simpa using hf
  unfold uploadFields
  rw [if_neg hcond]
  simp only [hin, if_true]
  unfold R2Bucket.put
  cases content <;> simp
  cases env.SCHEDULER_DATA.fault <;> simp

/-! ## The calls made on the binding -/

theorem list_calls (b : R2Bucket) : b.list.2.calls = b.calls ++ [R2Call.list] := by
  unfold R2Bucket.list
  cases b.fault <;> rfl

theorem get_calls (b : R2Bucket) (key : String) :
    (b.get key).2.calls = b.calls ++ [R2Call.get key] := by
  unfold R2Bucket.get
  cases b.fault <;> rfl

theorem put_calls (b : R2Bucket) (key : String) (value : JSValue) (ct : String) :
    (b.put key value ct).2.calls = b.calls ++ [R2Call.put key value ct] := by
  unfold R2Bucket.put
  cases value <;> simp
  cases b.fault <;> simp

theorem listRoute_calls (env : Env) :
    (listRoute env).2.calls = env.SCHEDULER_DATA.calls ++ [R2Call.list] := by
  have h := list_calls env.SCHEDULER_DATA
  unfold listRoute
  split <;> simp_all

theorem downloadRoute_calls (path : String) (env : Env) :
    (downloadRoute path env).2.calls =
      env.SCHEDULER_DATA.calls ++ [R2Call.get (substring path "/download/".length)] := by
  have h := get_calls env.SCHEDULER_DATA (substring path "/download/".length)
  unfold downloadRoute
  simp only []
  split <;> simp_all

theorem uploadFields_calls_le (filename content : JSValue) (env : Env) :
    ∃ made, (uploadFields filename content env).2.calls = env.SCHEDULER_DATA.calls ++ made ∧
      made.length ≤ 1 := by
  unfold uploadFields
  split
  · exact ⟨[], by simp, by simp⟩
  · split
    · next name _ =>
      split
      · have h := put_calls env.SCHEDULER_DATA name content "application/json"
        refine ⟨[R2Call.put name content "application/json"], ?_, by simp⟩
        split <;> simp_all
      · exact ⟨[], by simp, by simp⟩
    · exact ⟨[], by simp, by simp⟩

theorem uploadRoute_calls_le (request : Request) (env : Env) :
    ∃ made, (uploadRoute request env).2.calls = env.SCHEDULER_DATA.calls ++ made ∧
      made.length ≤ 1 := by
  unfold uploadRoute
  split
  · exact ⟨[], by simp, by simp⟩
  · split
    · exact ⟨[], by simp, by simp⟩
    · exact ⟨[], by simp, by simp⟩
    · exact uploadFields_calls_le _ _ env

theorem dispatch_calls_le (request : Request) (env : Env) :
    ∃ made, (dispatch request env).2.calls = env.SCHEDULER_DATA.calls ++ made ∧
      made.length ≤ 1 := by
  unfold dispatch
  simp only []
  split
  · exact ⟨_, listRoute_calls env, by simp⟩
  · split
    · exact uploadRoute_calls_le request env
    · split
      · exact ⟨_, downloadRoute_calls _ env, by simp⟩
      · split <;> exact ⟨[], by simp, by simp⟩

/-- The bucket after `fetch` is the bucket after the `try` block, when there is one. -/
theorem fetch_bucket {request : Request} (h0 : request.method ≠ "OPTIONS") (env : Env) :
    (fetch request env).2 = (dispatch request env).2 := by
  unfold fetch
  rw [if_neg h0]
  split <;> simp_all

/-- A request makes at most one call on the binding. -/
theorem fetch_calls_le (request : Request) (env : Env) :
    ∃ made, (fetch request env).2.calls = env.SCHEDULER_DATA.calls ++ made ∧
      made.length ≤ 1 := by
  by_cases h0 : request.method = "OPTIONS"
  · rw [fetch_options h0]
    exact ⟨[], by simp, by simp⟩
  · rw [fetch_bucket h0]
    exact dispatch_calls_le request env

/-! ## Requests that leave the bucket as it was -/

theorem uploadFields_status_400 (filename content : JSValue) (env : Env) (r : Response)
    (h : (uploadFields filename content env).1 = .ok r) (hs : r.status = 400) :
    (uploadFields filename content env).2 = env.SCHEDULER_DATA := by
  unfold uploadFields at h ⊢
  split
  · rfl
  · next hcond =>
    rw [if_neg hcond] at h
    split
    · next name _ =>
      simp only [] at h
      split
      · next hin =>
        rw [if_pos hin] at h
        split at h
        · simp at h
        · simp at h
          rw [← h] at hs
          simp at hs
      · rfl
    · rfl

theorem uploadRoute_status_400 (request : Request) (env : Env) (r : Response)
    (h : (uploadRoute request env).1 = .ok r) (hs : r.status = 400) :
    (uploadRoute request env).2 = env.SCHEDULER_DATA := by
  unfold uploadRoute at h ⊢
  split
  · rfl
  · next body hj =>
    simp only [hj] at h
    split
    · rfl
    · rfl
    · next filename content hf hc =>
      simp only [hf, hc] at h
      exact uploadFields_status_400 filename content env r h hs

theorem listRoute_status (env : Env) (r : Response) (h : (listRoute env).1 = .ok r) :
    r.status = 200 := by
  unfold listRoute at h
  split at h
  · simp at h
  · simp at h
    rw [← h]

theorem downloadRoute_status (path : String) (env : Env) (r : Response)
    (h : (downloadRoute path env).1 = .ok r) : r.status = 404 ∨ r.status = 200 := by
  unfold downloadRoute at h
  simp only [] at h
  split at h
  · simp at h
  · simp at h
    rw [← h]
    exact Or.inl rfl
  · simp at h
    rw [← h]
    exact Or.inr rfl

theorem dispatch_status_400 (request : Request) (env : Env) (r : Response)
    (h : (dispatch request env).1 = .ok r) (hs : r.status = 400) :
    (dispatch request env).2 = env.SCHEDULER_DATA := by
  unfold dispatch at h ⊢
  simp only [] at h ⊢
  split
  · next hc =>
    rw [if_pos hc] at h
    have := listRoute_status env r h
    omega
  · next hc =>
    rw [if_neg hc] at h
    split
    · next hc2 =>
      rw [if_pos hc2] at h
      exact uploadRoute_status_400 request env r h hs
    · next hc2 =>
      rw [if_neg hc2] at h
      split
      · next hc3 =>
        rw [if_pos hc3] at h
        have := downloadRoute_status _ env r h
        omega
      · split <;> rfl

/-- A request answered with status 400 leaves the bucket exactly as it was. -/
theorem fetch_status_400 (request : Request) (env : Env)
    (hs : (fetch request env).1.status = 400) :
    (fetch request env).2 = env.SCHEDULER_DATA := by
  by_cases h0 : request.method = "OPTIONS"
  · rw [fetch_options h0]
  · rw [fetch_bucket h0]
    unfold fetch at hs
    rw [if_neg h0] at hs
    split at hs
    · next response b heq =>
      exact dispatch_status_400 request env response (by rw [heq]) hs
    · simp at hs

/-- A request that is not routed to the upload route leaves the stored objects as they were. -/
theorem fetch_objects_of_not_upload {request : Request}
    (h : ¬(request.path = "/upload" ∧ request.method = "POST")) (env : Env) :
    (fetch request env).2.objects = env.SCHEDULER_DATA.objects := by
  by_cases h0 : request.method = "OPTIONS"
  · rw [fetch_options h0]
  · rw [fetch_bucket h0]
    unfold dispatch
    simp only [h, if_false]
    split
    · exact listRoute_objects env
    · split
      · exact downloadRoute_objects _ env
      · split <;> rfl

theorem uploadFields_unvalidated (filename content : JSValue) (env : Env)
    (h : (filename.truthy && content.truthy &&
      match filename with
      | .string name => allowedFiles.contains name
      | _ => false) = false) :
    (uploadFields filename content env).2 = env.SCHEDULER_DATA := by
  unfold uploadFields
  split
  · rfl
  · next hcond =>
    have ht : (filename.truthy && content.truthy) = true := by
      cases hf : filename.truthy <;> cases hc : content.truthy <;> simp_all
    rw [ht, Bool.true_and] at h
    split
    · next name _ =>
      simp only [] at h
      rw [if_neg (by rw [h]; exact Bool.false_ne_true)]
    · rfl

theorem dispatch_upload {request : Request} (hp : request.path = "/upload")
    (hm : request.method = "POST") (env : Env) :
    dispatch request env = uploadRoute request env := by
  unfold dispatch
  simp [hp, hm]

/-- A request that does not pass both checks of the upload route leaves the stored objects as
they were. -/
theorem fetch_objects_of_unvalidated {request : Request}
    (h : passesValidation request = false) (env : Env) :
    (fetch request env).2.objects = env.SCHEDULER_DATA.objects := by
  by_cases hu : request.path = "/upload" ∧ request.method = "POST"
  · have h0 : request.method ≠ "OPTIONS" := by rw [hu.2]; decide
    rw [fetch_bucket h0, dispatch_upload hu.1 hu.2]
    unfold passesValidation at h
    simp only [hu.1, hu.2, decide_True, Bool.true_and] at h
    unfold uploadRoute
    split
    · rfl
    · next body hj =>
      rw [hj] at h
      simp only [] at h
      split
      · rfl
      · rfl
      · next filename content hf hc =>
        rw [hf, hc] at h
        simp only [] at h
        rw [uploadFields_unvalidated filename content env h]
  · exact fetch_objects_of_not_upload hu env

/-- A path that starts with `/download/` is that text followed by the looked-up name. -/
theorem startsWith_eq_append {path : String} (h : startsWith path "/download/" = true) :
    path = "/download/" ++ substring path "/download/".length := by
  unfold startsWith at h
  rw [List.isPrefixOf_iff_prefix, List.prefix_iff_eq_append] at h
  have hlen : "/download/".length = "/download/".toList.length := rfl
  apply String.ext
  rw [String.data_append, substring, hlen]
  exact h.symm

theorem dispatch_list {request : Request} (hp : request.path = "/list")
    (hm : request.method = "GET") (env : Env) :
    dispatch request env = listRoute env := by
  unfold dispatch
  simp [hp, hm]

theorem dispatch_download {request : Request}
    (hp : startsWith request.path "/download/" = true) (hm : request.method = "GET")
    (env : Env) :
    dispatch request env = downloadRoute request.path env := by
  have hl := startsWith_ne_list hp
  unfold dispatch
  simp [hp, hm, hl]

/-- The field checks refuse an empty name, whatever the content. -/
theorem uploadFields_empty_name (content : JSValue) (env : Env) :
    uploadFields (.string "") content env =
      (.ok ⟨400, jsonHeaders, errorBody "Missing filename or content"⟩, env.SCHEDULER_DATA) := by
  simp [uploadFields, JSValue.truthy]

/-- The array advertised by the documentation route is the array of the upload route. -/
theorem advertisedFiles_root {request : Request} (hm : request.method = "GET")
    (hp : request.path = "/") (env : Env) :
    advertisedFiles (fetch request env).1 = allowedFiles := by
  rw [fetch_root hm hp env]
  rfl

/-- The field checks on a store that does not fail, when the content is a string or is not
truthy: a response with status 200 or 400, never an error. -/
theorem uploadFields_ok (filename content : JSValue) (env : Env)
    (h0 : env.SCHEDULER_DATA.fault = none)
    (hs : content.truthy = true → ∃ c, content = .string c) :
    ∃ r, (uploadFields filename content env).1 = .ok r ∧ (r.status = 200 ∨ r.status = 400) := by
  unfold uploadFields
  by_cases hcond : (!filename.truthy || !content.truthy) = true
  · rw [if_pos hcond]
    exact ⟨_, rfl, Or.inr rfl⟩
  · rw [if_neg hcond]
    have ht : content.truthy = true := by
      cases hct : content.truthy
      · simp [hct] at hcond
      · rfl
    obtain ⟨c, rfl⟩ := hs ht
    cases filename with
    | string name =>
      by_cases hin : allowedFiles.contains name = true
      · simp only [hin, if_true, R2Bucket.put, h0]
        exact ⟨_, rfl, Or.inl rfl⟩
      · simp only [hin]
        exact ⟨_, rfl, Or.inr rfl⟩
    | _ => exact ⟨_, rfl, Or.inr rfl⟩

/-- The status of an upload whose body destructures, on a store that does not fail, when the
content is a string or is not truthy: 200 or 400. -/
theorem upload_status_of_fields {request : Request} (hm : request.method = "POST")
    (hp : request.path = "/upload") {body filename content : JSValue}
    (hj : request.json = .ok body) (hf : body.getProp "filename" = .ok filename)
    (hc : body.getProp "content" = .ok content) (env : Env)
    (h0 : env.SCHEDULER_DATA.fault = none)
    (hs : content.truthy = true → ∃ c, content = .string c) :
    (fetch request env).1.status = 200 ∨ (fetch request env).1.status = 400 := by
  obtain ⟨r, hr, hstatus⟩ := uploadFields_ok filename content env h0 hs
  rw [fetch_upload_fields hm hp hj hf hc env]
  cases hres : uploadFields filename content env with
  | mk res b =>
    rw [hres] at hr
    simp only [] at hr
    subst hr
    exact hstatus

theorem utf16_count_of_bmp (chars : List Char) (h : ∀ ch ∈ chars, ch.toNat < 65536) :
    (chars.map fun ch => if ch.toNat < 65536 then 1 else 2).sum = chars.length := by
  induction chars with
  | nil => rfl
  | cons ch rest ih =>
    have hch : ch.toNat < 65536 := h ch (List.mem_cons_self ch rest)
    have hrest := ih fun x hx => h x (List.mem_cons_of_mem ch hx)
    simp only [List.map_cons, List.sum_cons, List.length_cons, hch, if_true, hrest]
    omega

/-! ## The allow-list and the upload route -/

/-- C1. Allow-list invariant of the store: for every store state and every request, every key
present in the store after the request is handled and absent before is one of the six
allow-listed names; hence, starting from an empty store, after any finite sequence of
requests (whatever the store faults met on the way) all keys of the store are allow-listed. -/
theorem store_keys_allow_listed :
    allowedFiles = ["config.json", "tasks.json", "timer_state.json", "completed_log.json",
      "incomplete_history.json", "daily_stats.json"] ∧
    (∀ (request : Request) (env : Env) (k : String),
      k ∈ (fetch request env).2.objects.keys → k ∉ env.SCHEDULER_DATA.objects.keys →
        k ∈ allowedFiles) ∧
    (∀ (steps : List (Request × Option String)) (k : String),
      k ∈ (serve ∅ steps).keys → k ∈ allowedFiles) := by
  refine ⟨rfl, ?_, ?_⟩
  · intro request env k hk hnot
    rcases keys_after_fetch request env k hk with h | h
    · exact absurd h hnot
    · exact h
  · intro steps k hk
    exact serve_keys steps ∅ (by simp) k hk

/-- The invariant C1 at the upload of `tasks.json` into an empty store, and at the sequence
made of a refused upload of `evil.json` followed by that upload. -/
theorem store_keys_allow_listed_witness :
    ("tasks.json" ∈ (fetch (uploadRequest "tasks.json" "\x7b\x7d") ⟨⟨∅, none, []⟩⟩).2.objects.keys ∧
      "tasks.json" ∉ (∅ : Objects).keys ∧ "tasks.json" ∈ allowedFiles) ∧
    ("tasks.json" ∈ (serve ∅ [(uploadRequest "evil.json" "[]", none),
        (uploadRequest "tasks.json" "\x7b\x7d", none)]).keys ∧ "tasks.json" ∈ allowedFiles) :=
  ⟨⟨by decide, by decide,
    store_keys_allow_listed.2.1 (uploadRequest "tasks.json" "\x7b\x7d") ⟨⟨∅, none, []⟩⟩
      "tasks.json" (by decide) (by decide)⟩,
   ⟨by decide,
    store_keys_allow_listed.2.2 [(uploadRequest "evil.json" "[]", none),
      (uploadRequest "tasks.json" "\x7b\x7d", none)] "tasks.json" (by decide)⟩⟩

/-- C2, as the code has it. A `POST /upload` whose body has a non-empty `filename` outside the
allow-list and a non-empty `content` is answered with status 400 and the body
`{error: "Invalid filename. Only scheduler JSON files allowed."}`, and the bucket is left
exactly as it was (no object written, no call made); a subsequent `GET /list` does not
contain that filename provided the store did not hold it before the upload. -/
theorem upload_invalid_filename_rejected (request : Request) (env : Env) (f c : String)
    (h : uploadOf request = some (f, c)) (hf0 : f ≠ "") (hf : f ∉ allowedFiles) (hc : c ≠ "") :
    (fetch request env).1 = ⟨400, jsonHeaders, .json (.object [("error",
        .string "Invalid filename. Only scheduler JSON files allowed.")])⟩ ∧
    (fetch request env).2 = env.SCHEDULER_DATA ∧
    ∀ (listRequest : Request) (fault : Option String),
      listRequest.method = "GET" → listRequest.path = "/list" →
      f ∉ env.SCHEDULER_DATA.objects.keys →
      f ∉ filesOf (fetch listRequest ⟨{ (fetch request env).2 with fault := fault }⟩).1 := by
  have hfetch : fetch request env =
      (⟨400, jsonHeaders, errorBody "Invalid filename. Only scheduler JSON files allowed."⟩,
        env.SCHEDULER_DATA) := by
    rw [fetch_of_upload h env, uploadFields_reject hf0 hf hc env]
  refine ⟨by rw [hfetch]; rfl, by rw [hfetch], ?_⟩
  intro listRequest fault hm hp hnot
  rw [hfetch]
  cases fault with
  | none =>
    rw [fetch_list hm hp _ rfl, filesOf_list]
    exact fun hin => hnot (listedKeys_subset _ hin)
  | some m =>
    rw [fetch_list_fault hm hp _ m rfl]
    simp [filesOf, errorBody, lookupField]

/-- The amended C2 at the upload of `evil.json` into an empty store. -/
theorem upload_invalid_filename_rejected_witness :
    (uploadOf (uploadRequest "evil.json" "[]") = some ("evil.json", "[]") ∧ "evil.json" ≠ "" ∧
      "evil.json" ∉ allowedFiles ∧ "[]" ≠ "") ∧
    (fetch (uploadRequest "evil.json" "[]") ⟨⟨∅, none, []⟩⟩).1 = ⟨400, jsonHeaders,
      .json (.object [("error",
        .string "Invalid filename. Only scheduler JSON files allowed.")])⟩ ∧
    (fetch (uploadRequest "evil.json" "[]") ⟨⟨∅, none, []⟩⟩).2.objects = ∅ ∧
    "evil.json" ∉ filesOf (fetch (getRequest "/list")
      ⟨{ (fetch (uploadRequest "evil.json" "[]") ⟨⟨∅, none, []⟩⟩).2 with fault := none }⟩).1 :=
  have h := upload_invalid_filename_rejected (uploadRequest "evil.json" "[]") ⟨⟨∅, none, []⟩⟩
    "evil.json" "[]" (by decide) (by decide) (by decide) (by decide)
  ⟨⟨by decide, by decide, by decide, by decide⟩, h.1, by rw [h.2.1],
    h.2.2 (getRequest "/list") none rfl rfl (by decide)⟩

/-- C2 as stated fails on a store that already holds `evil.json`: the upload of `evil.json` is
refused with status 400 and the store is left as it was, yet the subsequent `GET /list`
contains `evil.json`. -/
theorem upload_invalid_filename_still_listed :
    uploadOf (uploadRequest "evil.json" "[]") = some ("evil.json", "[]") ∧
    "evil.json" ∉ allowedFiles ∧
    (fetch (uploadRequest "evil.json" "[]") ⟨⟨foreignObjects, none, []⟩⟩).1.status = 400 ∧
    (fetch (uploadRequest "evil.json" "[]") ⟨⟨foreignObjects, none, []⟩⟩).2.objects
      = foreignObjects ∧
    "evil.json" ∈ filesOf (fetch (getRequest "/list")
      ⟨(fetch (uploadRequest "evil.json" "[]") ⟨⟨foreignObjects, none, []⟩⟩).2⟩).1 := by
  refine ⟨by decide, by decide, by decide, rfl, by decide⟩

/-- C3. A `POST /upload` whose body has an allow-listed `filename` and a non-empty string
`content`, on a store whose write succeeds: afterwards the store maps `filename` to exactly
`content`, tagged with the content type `application/json`, and the response is status 200
with the body `{success: true, filename, size}`, `size` being the length of `content`: its
number of UTF-16 code units, one for each character below U+10000 and two for each other
character, hence the number of characters when all are below U+10000. -/
theorem upload_stores_content (request : Request) (env : Env) (f c : String)
    (h : uploadOf request = some (f, c)) (hf : f ∈ allowedFiles) (hc : c ≠ "")
    (h0 : env.SCHEDULER_DATA.fault = none) :
    (fetch request env).2.objects.lookup f = some ⟨c, "application/json"⟩ ∧
    (fetch request env).1 = ⟨200, jsonHeaders, .json (.object [
      ("success", .bool true), ("filename", .string f),
      ("size", .number
        ((c.toList.map fun ch => if ch.toNat < 65536 then 1 else 2).sum : ℕ))])⟩ ∧
    ((∀ ch ∈ c.toList, ch.toNat < 65536) →
      (fetch request env).1 = ⟨200, jsonHeaders, .json (.object [
        ("success", .bool true), ("filename", .string f),
        ("size", .number (c.toList.length : ℕ))])⟩) := by
  rw [fetch_of_upload h env, uploadFields_accept hf hc env h0]
  refine ⟨AList.lookup_insert _, rfl, ?_⟩
  intro hbmp
  rw [jsLength, utf16_count_of_bmp c.toList hbmp]

/-- C3 at `tasks.json` with the content `{}`, of size 2, and with a content of two characters,
the second one above U+10000, of size 3. -/
theorem upload_stores_content_witness :
    (uploadOf (uploadRequest "tasks.json" "\x7b\x7d") = some ("tasks.json", "\x7b\x7d") ∧
      "tasks.json" ∈ allowedFiles ∧ "\x7b\x7d" ≠ "") ∧
    (fetch (uploadRequest "tasks.json" "\x7b\x7d") ⟨⟨∅, none, []⟩⟩).2.objects.lookup "tasks.json"
      = some ⟨"\x7b\x7d", "application/json"⟩ ∧
    (fetch (uploadRequest "tasks.json" "\x7b\x7d") ⟨⟨∅, none, []⟩⟩).1 = ⟨200, jsonHeaders,
      .json (.object [("success", .bool true), ("filename", .string "tasks.json"),
        ("size", .number 2)])⟩ ∧
    (fetch (uploadRequest "tasks.json" (String.mk ['a', Char.ofNat 128512]))
      ⟨⟨∅, none, []⟩⟩).1 = ⟨200, jsonHeaders,
      .json (.object [("success", .bool true), ("filename", .string "tasks.json"),
        ("size", .number 3)])⟩ :=
  have h1 := upload_stores_content (uploadRequest "tasks.json" "\x7b\x7d") ⟨⟨∅, none, []⟩⟩
    "tasks.json" "\x7b\x7d" (by decide) (by decide) (by decide) rfl
  have h2 := upload_stores_content
    (uploadRequest "tasks.json" (String.mk ['a', Char.ofNat 128512])) ⟨⟨∅, none, []⟩⟩
    "tasks.json" (String.mk ['a', Char.ofNat 128512]) (by decide) (by decide) (by decide) rfl
  ⟨⟨by decide, by decide, by decide⟩, h1.1, h1.2.1, h2.2.1⟩

/-- C4. Upload/download round trip: for every store state, every allow-listed filename `f`
and every non-empty string content `c`, on a store that does not fail, handling a
`POST /upload` of `f` and `c` and then `GET /download/f` returns status 200 with a body equal
to `c`. -/
theorem upload_download_round_trip (upload download : Request) (env : Env) (f c : String)
    (hu : uploadOf upload = some (f, c)) (hf : f ∈ allowedFiles) (hc : c ≠ "")
    (hm : download.method = "GET") (hp : download.path = "/download/" ++ f)
    (h0 : env.SCHEDULER_DATA.fault = none) :
    (fetch download ⟨(fetch upload env).2⟩).1 = ⟨200, jsonHeaders, .raw c⟩ := by
  have hs : startsWith download.path "/download/" = true := by
    rw [hp]
    exact startsWith_download f
  have hup := fetch_upload_accept hu hf hc env h0
  have hfault : (fetch upload env).2.fault = none := by rw [hup]; exact h0
  have hobj : (fetch upload env).2.objects =
      env.SCHEDULER_DATA.objects.insert f ⟨c, "application/json"⟩ := by rw [hup]
  rw [fetch_download hm hs ⟨(fetch upload env).2⟩ hfault, hp, substring_download]
  simp only [hobj, AList.lookup_insert]

/-- C4 at `tasks.json` with the content `{}`, uploaded into an empty store. -/
theorem upload_download_round_trip_witness :
    (uploadOf (uploadRequest "tasks.json" "\x7b\x7d") = some ("tasks.json", "\x7b\x7d") ∧
      "tasks.json" ∈ allowedFiles ∧ "\x7b\x7d" ≠ "" ∧
      (getRequest "/download/tasks.json").path = "/download/" ++ "tasks.json") ∧
    (fetch (getRequest "/download/tasks.json")
      ⟨(fetch (uploadRequest "tasks.json" "\x7b\x7d") ⟨⟨∅, none, []⟩⟩).2⟩).1
        = ⟨200, jsonHeaders, .raw "\x7b\x7d"⟩ :=
  ⟨⟨by decide, by decide, by decide, by decide⟩,
    upload_download_round_trip (uploadRequest "tasks.json" "\x7b\x7d")
      (getRequest "/download/tasks.json") ⟨⟨∅, none, []⟩⟩ "tasks.json" "\x7b\x7d"
      (by decide) (by decide) (by decide) rfl (by decide) rfl⟩

/-- C5. A `POST /upload` whose JSON body has the `filename` field or the `content` field
missing or empty is answered with status 400 and the body
`{error: "Missing filename or content"}`, and the bucket is left exactly as it was (no object
written, no call made), whatever the other field is: the presence check comes before the
allow-list check. -/
theorem upload_missing_field (request : Request) (env : Env)
    (fields : List (String × JSValue))
    (hm : request.method = "POST") (hp : request.path = "/upload")
    (hj : request.json = .ok (.object fields))
    (h : lookupField "filename" fields = .undefined ∨ lookupField "filename" fields = .string "" ∨
      lookupField "content" fields = .undefined ∨ lookupField "content" fields = .string "") :
    fetch request env =
      (⟨400, jsonHeaders, .json (.object [("error", .string "Missing filename or content")])⟩,
        env.SCHEDULER_DATA) := by
  unfold fetch dispatch uploadRoute uploadFields
  rcases h with h | h | h | h <;>
    simp [hm, hp, hj, JSValue.getProp, h, JSValue.truthy, errorBody]

/-- C5 at a body whose `filename` is outside the allow-list and whose `content` is missing. -/
theorem upload_missing_field_witness :
    lookupField "content" [("filename", JSValue.string "evil.json")] = .undefined ∧
    fetch ⟨"POST", "/upload", .ok (.object [("filename", .string "evil.json")])⟩
        ⟨⟨∅, none, []⟩⟩ =
      (⟨400, jsonHeaders, .json (.object [("error", .string "Missing filename or content")])⟩,
        ⟨∅, none, []⟩) :=
  ⟨rfl, upload_missing_field ⟨"POST", "/upload", .ok (.object [("filename", .string "evil.json")])⟩
    ⟨⟨∅, none, []⟩⟩ [("filename", .string "evil.json")] rfl rfl rfl (Or.inr (Or.inr (Or.inl rfl)))⟩

/-- C6. Download is an exact lookup: for every store state and every filename of a
`GET /download/{filename}` request, on a store that does not fail, if no object exists under
that key the response is status 404 with the body `{error: "File not found"}`, and if an
object exists the response is status 200 with the content type `application/json` and a body
equal to the whole stored value; the stored objects are left as they were. -/
theorem download_exact_lookup (request : Request) (env : Env) (filename : String)
    (hm : request.method = "GET") (hp : request.path = "/download/" ++ filename)
    (h0 : env.SCHEDULER_DATA.fault = none) :
    (env.SCHEDULER_DATA.objects.lookup filename = none →
      (fetch request env).1 =
        ⟨404, jsonHeaders, .json (.object [("error", .string "File not found")])⟩) ∧
    (∀ v, env.SCHEDULER_DATA.objects.lookup filename = some v →
      (fetch request env).1 = ⟨200, jsonHeaders, .raw v.body⟩ ∧
      ("Content-Type", "application/json") ∈ (fetch request env).1.headers) ∧
    (fetch request env).2.objects = env.SCHEDULER_DATA.objects := by
  have hs : startsWith request.path "/download/" = true := by
    rw [hp]
    exact startsWith_download filename
  rw [fetch_download hm hs env h0, hp, substring_download]
  refine ⟨?_, ?_, rfl⟩
  · intro hnone
    rw [hnone]
    rfl
  · intro v hv
    rw [hv]
    exact ⟨rfl, by simp [jsonHeaders]⟩

/-- C6 at a store holding `tasks.json`: that key is served whole, another key is not found. -/
theorem download_exact_lookup_witness :
    ((∅ : Objects).insert "tasks.json" ⟨"[1]", "application/json"⟩).lookup "tasks.json"
      = some ⟨"[1]", "application/json"⟩ ∧
    (fetch (getRequest "/download/tasks.json")
      ⟨⟨(∅ : Objects).insert "tasks.json" ⟨"[1]", "application/json"⟩, none, []⟩⟩).1
        = ⟨200, jsonHeaders, .raw "[1]"⟩ ∧
    ((∅ : Objects).insert "tasks.json" ⟨"[1]", "application/json"⟩).lookup "config.json" = none ∧
    (fetch (getRequest "/download/config.json")
      ⟨⟨(∅ : Objects).insert "tasks.json" ⟨"[1]", "application/json"⟩, none, []⟩⟩).1
        = ⟨404, jsonHeaders, .json (.object [("error", .string "File not found")])⟩ :=
  ⟨by decide,
    ((download_exact_lookup (getRequest "/download/tasks.json")
      ⟨⟨(∅ : Objects).insert "tasks.json" ⟨"[1]", "application/json"⟩, none, []⟩⟩ "tasks.json"
      rfl (by decide) rfl).2.1 ⟨"[1]", "application/json"⟩ (by decide)).1,
    by decide,
    (download_exact_lookup (getRequest "/download/config.json")
      ⟨⟨(∅ : Objects).insert "tasks.json" ⟨"[1]", "application/json"⟩, none, []⟩⟩ "config.json"
      rfl (by decide) rfl).1 (by decide)⟩


/-- C7 at a store that holds 1001 objects and does not fail: `GET /list`, which calls `list()`
once and reads no cursor, returns status 200 with 1000 names in `files` and `count` equal to
1000, so that a key of the store is omitted. -/
theorem list_omits_key_beyond_page :
    crowdedObjects.keys.length = 1001 ∧
    ∃ files : List String,
      fetch (getRequest "/list") ⟨⟨crowdedObjects, none, []⟩⟩ =
        (⟨200, jsonHeaders, .json (.object [
          ("files", .array (files.map JSValue.string)), ("count", .number (1000 : ℕ))])⟩,
          ⟨crowdedObjects, none, [R2Call.list]⟩) ∧
      files.length = 1000 ∧
      ∃ k, k ∈ crowdedObjects.keys ∧ k ∉ files := by
  have hkeys : crowdedObjects.keys.length = 1001 := by
    simp [crowdedObjects, AList.keys, List.keys]
  have hlen : (listedKeys crowdedObjects).length = 1000 := by
    rw [listedKeys_length, hkeys]
    decide
  refine ⟨hkeys, listedKeys crowdedObjects, ?_, hlen, ?_⟩
  · rw [fetch_list rfl rfl _ rfl, hlen]
    rfl
  · by_contra hall
    push_neg at hall
    have hsub : crowdedObjects.keys ⊆ listedKeys crowdedObjects := fun k hk => hall k hk
    have hle := (List.Nodup.subperm (AList.keys_nodup crowdedObjects) hsub).length_le
    omega

/-- C10. For every request, whatever its method, path, body, the store state and the fault of
the store (so also when the response is a 400, 404 or 500), the response headers include the
three fixed cross-origin headers: `Access-Control-Allow-Origin: *`,
`Access-Control-Allow-Methods: GET, POST, OPTIONS` and
`Access-Control-Allow-Headers: Content-Type`. -/
theorem cors_headers_always (request : Request) (env : Env) :
    ("Access-Control-Allow-Origin", "*") ∈ (fetch request env).1.headers ∧
    ("Access-Control-Allow-Methods", "GET, POST, OPTIONS") ∈ (fetch request env).1.headers ∧
    ("Access-Control-Allow-Headers", "Content-Type") ∈ (fetch request env).1.headers := by
  rcases fetch_headers request env with h | h <;> rw [h] <;> decide

/-- C8. For every `N` and every sequence of successful uploads, starting from an empty store,
of `N` pairwise distinct allow-listed filenames, each with a non-empty content, `N` is at most
6 and a subsequent `GET /list` returns `count` equal to `N` and `files` holding exactly those
`N` filenames, each once, in some order. -/
theorem list_after_uploads (uploads : List Request) (names : List String) (N : Nat)
    (listRequest : Request)
    (hup : List.Forall₂
      (fun r f => ∃ c, uploadOf r = some (f, c) ∧ f ∈ allowedFiles ∧ c ≠ "") uploads names)
    (hdistinct : names.Nodup) (hN : names.length = N)
    (hm : listRequest.method = "GET") (hp : listRequest.path = "/list") :
    N ≤ 6 ∧
    ∃ files : List String,
      (fetch listRequest ⟨⟨serve ∅ (uploads.map fun r => (r, none)), none, []⟩⟩).1 =
        ⟨200, jsonHeaders, .json (.object [
          ("files", .array (files.map JSValue.string)), ("count", .number N)])⟩ ∧
      files.Perm names := by
  have hperm := serve_uploads_keys hup ∅ hdistinct (by simp)
  rw [AList.keys_empty, List.append_nil] at hperm
  constructor
  · have hsub : names ⊆ allowedFiles := uploads_names_allowed hup
    have hle := (List.Nodup.subperm hdistinct hsub).length_le
    rw [hN] at hle
    exact hle
  · have hle : names.length ≤ listLimit := by
      have hsub : names ⊆ allowedFiles := uploads_names_allowed hup
      have hsix := (List.Nodup.subperm hdistinct hsub).length_le
      exact hsix.trans (by decide)
    have hlisted := listedKeys_perm (by rw [hperm.length_eq]; exact hle)
    refine ⟨_, ?_, hlisted.trans hperm⟩
    rw [fetch_list hm hp _ rfl, ← hN, ← hperm.length_eq, ← hlisted.length_eq]

/-- C8 at the uploads of `tasks.json` and `config.json` into an empty store: `N` is 2. -/
theorem list_after_uploads_witness :
    (List.Forall₂ (fun r f => ∃ c, uploadOf r = some (f, c) ∧ f ∈ allowedFiles ∧ c ≠ "")
        [uploadRequest "tasks.json" "\x7b\x7d", uploadRequest "config.json" "[]"]
        ["tasks.json", "config.json"] ∧
      ["tasks.json", "config.json"].Nodup) ∧
    (2 ≤ 6 ∧
      ∃ files : List String,
        (fetch (getRequest "/list") ⟨⟨serve ∅
          ([uploadRequest "tasks.json" "\x7b\x7d", uploadRequest "config.json" "[]"].map
            fun r => (r, none)), none, []⟩⟩).1 =
          ⟨200, jsonHeaders, .json (.object [
            ("files", .array (files.map JSValue.string)), ("count", .number (2 : ℕ))])⟩ ∧
        files.Perm ["tasks.json", "config.json"]) :=
  have hup : List.Forall₂
      (fun r f => ∃ c, uploadOf r = some (f, c) ∧ f ∈ allowedFiles ∧ c ≠ "")
      [uploadRequest "tasks.json" "\x7b\x7d", uploadRequest "config.json" "[]"]
      ["tasks.json", "config.json"] :=
    List.Forall₂.cons ⟨"\x7b\x7d", rfl, by decide, by decide⟩
      (List.Forall₂.cons ⟨"[]", rfl, by decide, by decide⟩ List.Forall₂.nil)
  ⟨⟨hup, by decide⟩,
    list_after_uploads _ _ 2 (getRequest "/list") hup (by decide) rfl rfl rfl⟩

/-- C9. Upload is idempotent and last-write-wins: for every store state, every allow-listed
filename `f` and non-empty contents `c` and `c'`, on a store that does not fail, handling the
upload of `f` with `c` a second time leaves the same store as handling it once, and both
responses are the same 200 success response; handling the upload of `f` with `c` and then with
`c'` leaves `f` mapped to `c'`, the store being the one that the upload of `c'` alone
produces. -/
theorem upload_idempotent_last_write_wins (first again other : Request) (env : Env)
    (f c c' : String)
    (h1 : uploadOf first = some (f, c)) (h2 : uploadOf again = some (f, c))
    (h3 : uploadOf other = some (f, c'))
    (hf : f ∈ allowedFiles) (hc : c ≠ "") (hc' : c' ≠ "")
    (h0 : env.SCHEDULER_DATA.fault = none) :
    (fetch again ⟨(fetch first env).2⟩).2.objects = (fetch first env).2.objects ∧
    (fetch first env).1 = ⟨200, jsonHeaders, .json (.object [
      ("success", .bool true), ("filename", .string f), ("size", .number (jsLength c))])⟩ ∧
    (fetch again ⟨(fetch first env).2⟩).1 = (fetch first env).1 ∧
    (fetch other ⟨(fetch first env).2⟩).2.objects.lookup f = some ⟨c', "application/json"⟩ ∧
    (fetch other ⟨(fetch first env).2⟩).2.objects = (fetch other env).2.objects := by
  have hfirst := fetch_upload_accept h1 hf hc env h0
  have hfault : (fetch first env).2.fault = none := by rw [hfirst]; exact h0
  have hobj : (fetch first env).2.objects =
      env.SCHEDULER_DATA.objects.insert f ⟨c, "application/json"⟩ := by rw [hfirst]
  have hagain := fetch_upload_accept h2 hf hc ⟨(fetch first env).2⟩ hfault
  have hother := fetch_upload_accept h3 hf hc' ⟨(fetch first env).2⟩ hfault
  have hdirect := fetch_upload_accept h3 hf hc' env h0
  refine ⟨?_, ?_, ?_, ?_, ?_⟩
  · rw [hagain]
    simp only [hobj, AList.insert_insert]
  · rw [hfirst]
  · rw [hagain, hfirst]
  · rw [hother]
    exact AList.lookup_insert _
  · rw [hother, hdirect]
    simp only [hobj, AList.insert_insert]

/-- C9 at `tasks.json`, uploaded with `{}` twice and then with `[]`, into an empty store. -/
theorem upload_idempotent_last_write_wins_witness :
    (uploadOf (uploadRequest "tasks.json" "\x7b\x7d") = some ("tasks.json", "\x7b\x7d") ∧
      uploadOf (uploadRequest "tasks.json" "[]") = some ("tasks.json", "[]") ∧
      "tasks.json" ∈ allowedFiles ∧ "\x7b\x7d" ≠ "" ∧ "[]" ≠ "") ∧
    (fetch (uploadRequest "tasks.json" "\x7b\x7d")
        ⟨(fetch (uploadRequest "tasks.json" "\x7b\x7d") ⟨⟨∅, none, []⟩⟩).2⟩).2.objects =
      (fetch (uploadRequest "tasks.json" "\x7b\x7d") ⟨⟨∅, none, []⟩⟩).2.objects ∧
    (fetch (uploadRequest "tasks.json" "[]")
        ⟨(fetch (uploadRequest "tasks.json" "\x7b\x7d") ⟨⟨∅, none, []⟩⟩).2⟩).2.objects.lookup
      "tasks.json" = some ⟨"[]", "application/json"⟩ :=
  have h := upload_idempotent_last_write_wins (uploadRequest "tasks.json" "\x7b\x7d")
    (uploadRequest "tasks.json" "\x7b\x7d") (uploadRequest "tasks.json" "[]") ⟨⟨∅, none, []⟩⟩
    "tasks.json" "\x7b\x7d" "[]" (by decide) (by decide) (by decide) (by decide) (by decide)
    (by decide) rfl
  ⟨⟨by decide, by decide, by decide, by decide, by decide⟩, h.1, h.2.2.2.1⟩

/-! ## Routing, faults and the calls on the store -/

/-- C11. For every request with method `OPTIONS`, whatever its path, its body and the store
state, the response has status 200 and an empty body, and the bucket is left exactly as it
was: no object is written and no call is made on the store. -/
theorem preflight_empty_200 (request : Request) (env : Env)
    (hm : request.method = "OPTIONS") :
    (fetch request env).1.status = 200 ∧ (fetch request env).1.body = Body.empty ∧
    (fetch request env).2 = env.SCHEDULER_DATA := by
  rw [fetch_options hm env]
  exact ⟨rfl, rfl, rfl⟩

/-- C11 at `OPTIONS /upload` with an upload body, on a store that is failing. -/
theorem preflight_empty_200_witness :
    (fetch ⟨"OPTIONS", "/upload", (uploadRequest "tasks.json" "[]").json⟩
      ⟨⟨foreignObjects, some "outage", []⟩⟩).1.status = 200 ∧
    (fetch ⟨"OPTIONS", "/upload", (uploadRequest "tasks.json" "[]").json⟩
      ⟨⟨foreignObjects, some "outage", []⟩⟩).1.body = Body.empty ∧
    (fetch ⟨"OPTIONS", "/upload", (uploadRequest "tasks.json" "[]").json⟩
      ⟨⟨foreignObjects, some "outage", []⟩⟩).2 = ⟨foreignObjects, some "outage", []⟩ :=
  preflight_empty_200 ⟨"OPTIONS", "/upload", (uploadRequest "tasks.json" "[]").json⟩
    ⟨⟨foreignObjects, some "outage", []⟩⟩ rfl

/-- C12. For every request whose method is not `OPTIONS` and whose method and path are none of
`GET /list`, `POST /upload`, `GET` with a path starting with `/download/`, and `GET /`, the
response is status 404 with the body `{error: "Not found"}` and the bucket is left exactly as
it was: no call is made on the store. -/
theorem unmatched_not_found (request : Request) (env : Env)
    (h0 : request.method ≠ "OPTIONS")
    (h1 : ¬(request.path = "/list" ∧ request.method = "GET"))
    (h2 : ¬(request.path = "/upload" ∧ request.method = "POST"))
    (h3 : ¬(startsWith request.path "/download/" = true ∧ request.method = "GET"))
    (h4 : ¬(request.path = "/" ∧ request.method = "GET")) :
    fetch request env =
      (⟨404, jsonHeaders, .json (.object [("error", .string "Not found")])⟩,
        env.SCHEDULER_DATA) :=
  fetch_not_found h0 h1 h2 h3 h4 env

/-- C12 at `GET /bogus`, at `GET /download` without the trailing slash and at `POST /list`. -/
theorem unmatched_not_found_witness :
    fetch (getRequest "/bogus") ⟨⟨∅, none, []⟩⟩ =
      (⟨404, jsonHeaders, .json (.object [("error", .string "Not found")])⟩, ⟨∅, none, []⟩) ∧
    fetch (getRequest "/download") ⟨⟨∅, none, []⟩⟩ =
      (⟨404, jsonHeaders, .json (.object [("error", .string "Not found")])⟩, ⟨∅, none, []⟩) ∧
    fetch ⟨"POST", "/list", .ok (.object [])⟩ ⟨⟨∅, none, []⟩⟩ =
      (⟨404, jsonHeaders, .json (.object [("error", .string "Not found")])⟩, ⟨∅, none, []⟩) :=
  ⟨unmatched_not_found (getRequest "/bogus") ⟨⟨∅, none, []⟩⟩ (by decide) (by decide)
      (by decide) (by decide) (by decide),
    unmatched_not_found (getRequest "/download") ⟨⟨∅, none, []⟩⟩ (by decide) (by decide)
      (by decide) (by decide) (by decide),
    unmatched_not_found ⟨"POST", "/list", .ok (.object [])⟩ ⟨⟨∅, none, []⟩⟩ (by decide)
      (by decide) (by decide) (by decide) (by decide)⟩

/-- C13. Uniform fault conversion. When the store call of the list route, of the download
route or of an accepted upload throws with message `m`, or when reading the body of an upload
as JSON throws with message `m`, the response is status 500 with the body `{error: m}`, the
message being surfaced as it is; the stored objects are as before, and the call log shows the
one call that threw (none for the body that does not parse): no second call, no retry. -/
theorem faults_become_500 (request : Request) (env : Env) (m : String) :
    (request.method = "GET" → request.path = "/list" → env.SCHEDULER_DATA.fault = some m →
      fetch request env =
        (⟨500, jsonHeaders, .json (.object [("error", .string m)])⟩,
          { env.SCHEDULER_DATA with calls := env.SCHEDULER_DATA.calls ++ [R2Call.list] })) ∧
    (request.method = "GET" → startsWith request.path "/download/" = true →
      env.SCHEDULER_DATA.fault = some m →
      fetch request env =
        (⟨500, jsonHeaders, .json (.object [("error", .string m)])⟩,
          { env.SCHEDULER_DATA with
            calls := env.SCHEDULER_DATA.calls ++
              [R2Call.get (substring request.path "/download/".length)] })) ∧
    (request.method = "POST" → request.path = "/upload" → request.json = .error m →
      fetch request env =
        (⟨500, jsonHeaders, .json (.object [("error", .string m)])⟩, env.SCHEDULER_DATA)) ∧
    (∀ f c, uploadOf request = some (f, c) → f ∈ allowedFiles → c ≠ "" →
      env.SCHEDULER_DATA.fault = some m →
      fetch request env =
        (⟨500, jsonHeaders, .json (.object [("error", .string m)])⟩,
          { env.SCHEDULER_DATA with
            calls := env.SCHEDULER_DATA.calls ++
              [R2Call.put f (.string c) "application/json"] })) :=
  ⟨fun hm hp h0 => fetch_list_fault hm hp env m h0,
    fun hm hp h0 => fetch_download_fault hm hp env m h0,
    fun hm hp hj => fetch_upload_parse_error hm hp m hj env,
    fun _ _ h hf hc h0 => fetch_upload_put_fault h hf hc env m h0⟩

/-- C13 at a store failing with `outage` (list, download, accepted upload) and at an upload
whose body does not parse. -/
theorem faults_become_500_witness :
    fetch (getRequest "/list") ⟨⟨foreignObjects, some "outage", []⟩⟩ =
      (⟨500, jsonHeaders, .json (.object [("error", .string "outage")])⟩,
        ⟨foreignObjects, some "outage", [R2Call.list]⟩) ∧
    fetch (getRequest "/download/evil.json") ⟨⟨foreignObjects, some "outage", []⟩⟩ =
      (⟨500, jsonHeaders, .json (.object [("error", .string "outage")])⟩,
        ⟨foreignObjects, some "outage", [R2Call.get "evil.json"]⟩) ∧
    fetch ⟨"POST", "/upload", .error "Unexpected token"⟩ ⟨⟨foreignObjects, none, []⟩⟩ =
      (⟨500, jsonHeaders, .json (.object [("error", .string "Unexpected token")])⟩,
        ⟨foreignObjects, none, []⟩) ∧
    fetch (uploadRequest "tasks.json" "[]") ⟨⟨foreignObjects, some "outage", []⟩⟩ =
      (⟨500, jsonHeaders, .json (.object [("error", .string "outage")])⟩,
        ⟨foreignObjects, some "outage",
          [R2Call.put "tasks.json" (.string "[]") "application/json"]⟩) :=
  ⟨(faults_become_500 (getRequest "/list") ⟨⟨foreignObjects, some "outage", []⟩⟩
      "outage").1 rfl rfl rfl,
    (faults_become_500 (getRequest "/download/evil.json")
      ⟨⟨foreignObjects, some "outage", []⟩⟩ "outage").2.1 rfl (by decide) rfl,
    (faults_become_500 ⟨"POST", "/upload", .error "Unexpected token"⟩
      ⟨⟨foreignObjects, none, []⟩⟩ "Unexpected token").2.2.1 rfl rfl rfl,
    (faults_become_500 (uploadRequest "tasks.json" "[]")
      ⟨⟨foreignObjects, some "outage", []⟩⟩ "outage").2.2.2 "tasks.json" "[]" (by decide)
      (by decide) (by decide) rfl⟩

/-- C14. For every store state, `GET /` returns status 200 with one and the same body: the
service name, the version, exactly three endpoint descriptions (`GET /list`, `POST /upload`,
`GET /download/:filename`) and `allowed_files` equal to the literal list of the six
allow-listed filenames; the response does not depend on the store, and the bucket is left
exactly as it was, no call being made on the store. -/
theorem describe_service (request : Request) (env : Env)
    (hm : request.method = "GET") (hp : request.path = "/") :
    fetch request env =
      (⟨200, jsonHeaders, .json (.object [
          ("service", .string "Daily Scheduler Sync API"),
          ("version", .string "1.0.0"),
          ("endpoints", .object [
            ("GET /list", .string "List all files in bucket"),
            ("POST /upload", .string "Upload JSON file (body: \x7bfilename, content\x7d)"),
            ("GET /download/:filename", .string "Download JSON file from R2")]),
          ("allowed_files", .array [
            .string "config.json", .string "tasks.json", .string "timer_state.json",
            .string "completed_log.json", .string "incomplete_history.json",
            .string "daily_stats.json"])])⟩,
        env.SCHEDULER_DATA) ∧
    (endpointsOf (fetch request env).1).map Prod.fst =
      ["GET /list", "POST /upload", "GET /download/:filename"] ∧
    advertisedFiles (fetch request env).1 =
      ["config.json", "tasks.json", "timer_state.json", "completed_log.json",
        "incomplete_history.json", "daily_stats.json"] := by
  rw [fetch_root hm hp env]
  exact ⟨rfl, rfl, rfl⟩

/-- C14 on an empty store and on a failing store that holds an object: the same response. -/
theorem describe_service_witness :
    (fetch (getRequest "/") ⟨⟨∅, none, []⟩⟩).1 =
      (fetch (getRequest "/") ⟨⟨foreignObjects, some "outage", []⟩⟩).1 ∧
    (fetch (getRequest "/") ⟨⟨foreignObjects, some "outage", []⟩⟩).2 =
      ⟨foreignObjects, some "outage", []⟩ ∧
    advertisedFiles (fetch (getRequest "/") ⟨⟨∅, none, []⟩⟩).1 =
      ["config.json", "tasks.json", "timer_state.json", "completed_log.json",
        "incomplete_history.json", "daily_stats.json"] :=
  have h1 := describe_service (getRequest "/") ⟨⟨∅, none, []⟩⟩ rfl rfl
  have h2 := describe_service (getRequest "/") ⟨⟨foreignObjects, some "outage", []⟩⟩ rfl rfl
  ⟨by rw [h1.1, h2.1], by rw [h2.1], h1.2.2⟩

/-- C15. For every request the handler makes at most one call on the object store: exactly one
`list` for `GET /list`, exactly one `get` for `GET /download/{filename}`, exactly one `put`
for an upload that passes both validations, and no call at all for `OPTIONS`, for `GET /`,
for an unmatched route and for an upload rejected with status 400. -/
theorem at_most_one_store_call (request : Request) (env : Env) :
    (∃ made, (fetch request env).2.calls = env.SCHEDULER_DATA.calls ++ made ∧
      made.length ≤ 1) ∧
    (request.method = "GET" → request.path = "/list" →
      (fetch request env).2.calls = env.SCHEDULER_DATA.calls ++ [R2Call.list]) ∧
    (request.method = "GET" → startsWith request.path "/download/" = true →
      (fetch request env).2.calls = env.SCHEDULER_DATA.calls ++
        [R2Call.get (substring request.path "/download/".length)]) ∧
    (∀ body f content, request.method = "POST" → request.path = "/upload" →
      request.json = .ok body → body.getProp "filename" = .ok (.string f) →
      body.getProp "content" = .ok content → f ∈ allowedFiles → content.truthy = true →
      (fetch request env).2.calls = env.SCHEDULER_DATA.calls ++
        [R2Call.put f content "application/json"]) ∧
    (request.method = "OPTIONS" → (fetch request env).2.calls = env.SCHEDULER_DATA.calls) ∧
    (request.method = "GET" → request.path = "/" →
      (fetch request env).2.calls = env.SCHEDULER_DATA.calls) ∧
    (request.method ≠ "OPTIONS" →
      ¬(request.path = "/list" ∧ request.method = "GET") →
      ¬(request.path = "/upload" ∧ request.method = "POST") →
      ¬(startsWith request.path "/download/" = true ∧ request.method = "GET") →
      ¬(request.path = "/" ∧ request.method = "GET") →
      (fetch request env).2.calls = env.SCHEDULER_DATA.calls) ∧
    ((fetch request env).1.status = 400 →
      (fetch request env).2.calls = env.SCHEDULER_DATA.calls) := by
  refine ⟨fetch_calls_le request env, ?_, ?_, ?_, ?_, ?_, ?_, ?_⟩
  · intro hm hp
    have h0 : request.method ≠ "OPTIONS" := by rw [hm]; decide
    rw [fetch_bucket h0, dispatch_list hp hm]
    exact listRoute_calls env
  · intro hm hp
    have h0 : request.method ≠ "OPTIONS" := by rw [hm]; decide
    rw [fetch_bucket h0, dispatch_download hp hm]
    exact downloadRoute_calls _ env
  · intro body f content hm hp hj hf hc hmem htruthy
    have h0 : request.method ≠ "OPTIONS" := by rw [hm]; decide
    rw [fetch_bucket h0, dispatch_upload hp hm]
    unfold uploadRoute
    simp only [hj, hf, hc]
    exact uploadFields_calls hmem htruthy env
  · intro hm
    rw [fetch_options hm env]
  · intro hm hp
    rw [fetch_root hm hp env]
  · intro h0 h1 h2 h3 h4
    rw [fetch_not_found h0 h1 h2 h3 h4 env]
  · intro hs
    rw [fetch_status_400 request env hs]

/-- C15 at an accepted upload, a rejected upload, a download and a preflight: one `put`, no
call, one `get`, no call. -/
theorem at_most_one_store_call_witness :
    (fetch (uploadRequest "tasks.json" "[]") ⟨⟨∅, none, []⟩⟩).2.calls =
      [] ++ [R2Call.put "tasks.json" (.string "[]") "application/json"] ∧
    ((fetch (uploadRequest "evil.json" "[]") ⟨⟨∅, none, []⟩⟩).1.status = 400 ∧
      (fetch (uploadRequest "evil.json" "[]") ⟨⟨∅, none, []⟩⟩).2.calls = []) ∧
    (fetch (getRequest "/download/tasks.json") ⟨⟨∅, none, []⟩⟩).2.calls =
      [] ++ [R2Call.get (substring "/download/tasks.json" "/download/".length)] ∧
    (fetch ⟨"OPTIONS", "/list", .error "Unexpected end of JSON input"⟩
      ⟨⟨∅, none, []⟩⟩).2.calls = [] :=
  ⟨(at_most_one_store_call (uploadRequest "tasks.json" "[]") ⟨⟨∅, none, []⟩⟩).2.2.2.1
      (.object [("filename", .string "tasks.json"), ("content", .string "[]")])
      "tasks.json" (.string "[]") rfl rfl rfl rfl rfl (by decide) (by decide),
    ⟨by decide,
      (at_most_one_store_call (uploadRequest "evil.json" "[]")
        ⟨⟨∅, none, []⟩⟩).2.2.2.2.2.2.2 (by decide)⟩,
    (at_most_one_store_call (getRequest "/download/tasks.json")
      ⟨⟨∅, none, []⟩⟩).2.2.1 rfl (by decide),
    (at_most_one_store_call ⟨"OPTIONS", "/list", .error "Unexpected end of JSON input"⟩
      ⟨⟨∅, none, []⟩⟩).2.2.2.2.1 rfl⟩

/-- C16, as the code has it. Download skips the allow-list and takes the filename as it
stands in `url.pathname`: for every key `k` present in the store, allow-listed or not, that
the URL parser leaves unchanged (the pathname of `/download/` followed by `k` is that very
text), on a store that does not fail, a `GET` request for `/download/` followed by `k` returns
status 200 with the body stored under `k`; and for every `GET` request whose pathname starts
with `/download/`, the key looked up, by the one `get` call made, is exactly the remainder of
the pathname after that text, the handler applying no decoding, normalisation or validation
to it. -/
theorem download_any_key (request : Request) (env : Env) (hm : request.method = "GET") :
    (∀ k v, request.path = pathname ("/download/" ++ k) →
      pathname ("/download/" ++ k) = "/download/" ++ k →
      env.SCHEDULER_DATA.fault = none →
      env.SCHEDULER_DATA.objects.lookup k = some v →
      fetch request env =
        (⟨200, jsonHeaders, .raw v.body⟩,
          { env.SCHEDULER_DATA with
            calls := env.SCHEDULER_DATA.calls ++ [R2Call.get k] })) ∧
    (∀ target, request.path = pathname target →
      startsWith (pathname target) "/download/" = true →
      pathname target = "/download/" ++ substring (pathname target) "/download/".length ∧
      (fetch request env).2.calls = env.SCHEDULER_DATA.calls ++
        [R2Call.get (substring (pathname target) "/download/".length)]) := by
  constructor
  · intro k v hp hsafe h0 hk
    rw [hsafe] at hp
    have hs : startsWith request.path "/download/" = true := by
      rw [hp]
      exact startsWith_download k
    rw [fetch_download hm hs env h0, hp, substring_download, hk]
  · intro target hp hs
    have h0 : request.method ≠ "OPTIONS" := by rw [hm]; decide
    rw [← hp] at hs ⊢
    refine ⟨startsWith_eq_append hs, ?_⟩
    rw [fetch_bucket h0, dispatch_download hs hm]
    exact downloadRoute_calls _ env

/-- The amended C16 at the key `evil.json`, outside the allow-list, held by the store. -/
theorem download_any_key_witness :
    "evil.json" ∉ allowedFiles ∧
    pathname ("/download/" ++ "evil.json") = "/download/" ++ "evil.json" ∧
    foreignObjects.lookup "evil.json" = some ⟨"[]", "text/plain"⟩ ∧
    fetch ⟨"GET", pathname ("/download/" ++ "evil.json"), .error "Unexpected end of JSON input"⟩
        ⟨⟨foreignObjects, none, []⟩⟩ =
      (⟨200, jsonHeaders, .raw "[]"⟩, ⟨foreignObjects, none, [R2Call.get "evil.json"]⟩) :=
  ⟨by decide, by decide, by decide,
    (download_any_key
      ⟨"GET", pathname ("/download/" ++ "evil.json"), .error "Unexpected end of JSON input"⟩
      ⟨⟨foreignObjects, none, []⟩⟩ rfl).1
      "evil.json" ⟨"[]", "text/plain"⟩ rfl (by decide) rfl (by decide)⟩

/-- C16 as stated fails on the key `a b`, present in the store: the pathname of the request
for `/download/a b` is `/download/a%20b`, the handler looks up `a%20b` without decoding it,
and the response is 404 `File not found`; the request for `/download/a%20b` fares the same. -/
theorem download_key_with_space_not_found :
    spacedObjects.lookup "a b" = some ⟨"[]", "application/json"⟩ ∧
    pathname "/download/a b" = "/download/a%20b" ∧
    fetch ⟨"GET", pathname "/download/a b", .error "Unexpected end of JSON input"⟩
        ⟨⟨spacedObjects, none, []⟩⟩ =
      (⟨404, jsonHeaders, .json (.object [("error", .string "File not found")])⟩,
        ⟨spacedObjects, none, [R2Call.get "a%20b"]⟩) ∧
    fetch ⟨"GET", pathname "/download/a%20b", .error "Unexpected end of JSON input"⟩
        ⟨⟨spacedObjects, none, []⟩⟩ =
      (⟨404, jsonHeaders, .json (.object [("error", .string "File not found")])⟩,
        ⟨spacedObjects, none, [R2Call.get "a%20b"]⟩) :=
  ⟨by decide, by decide, rfl, rfl⟩

/-! ## Client errors, frame conditions and the two allow-lists -/

/-- C17 at the body `null`, on a store that does not fail: the destructuring of the body
throws before the presence check is reached, and the `catch` block answers with status 500
and the message of that `TypeError`, without any call on the store; whereas the bodies `5`,
`"x"`, `[]` and `{}`, which lack the two fields just as well, are answered with status 400
and `{error: "Missing filename or content"}`. -/
theorem null_body_surfaces_fault :
    fetch nullUpload ⟨⟨∅, none, []⟩⟩ =
      (⟨500, jsonHeaders,
        .json (.object [("error", .string (destructureError "filename" "null"))])⟩,
        ⟨∅, none, []⟩) ∧
    (fetch ⟨"POST", "/upload", .ok (.number 5)⟩ ⟨⟨∅, none, []⟩⟩).1 =
      ⟨400, jsonHeaders, .json (.object [("error", .string "Missing filename or content")])⟩ ∧
    (fetch ⟨"POST", "/upload", .ok (.string "x")⟩ ⟨⟨∅, none, []⟩⟩).1 =
      ⟨400, jsonHeaders, .json (.object [("error", .string "Missing filename or content")])⟩ ∧
    (fetch ⟨"POST", "/upload", .ok (.array [])⟩ ⟨⟨∅, none, []⟩⟩).1 =
      ⟨400, jsonHeaders, .json (.object [("error", .string "Missing filename or content")])⟩ ∧
    (fetch ⟨"POST", "/upload", .ok (.object [])⟩ ⟨⟨∅, none, []⟩⟩).1 =
      ⟨400, jsonHeaders, .json (.object [("error", .string "Missing filename or content")])⟩ :=
  ⟨rfl, rfl, rfl, rfl, rfl⟩

/-- C18. Only a validated upload writes: for every store state and every request that is not a
`POST /upload` passing both the presence check and the allow-list check, the stored objects
after the request are the stored objects before it; so it is for every request that is not
routed to the upload route (`OPTIONS`, `GET /list`, `GET /download/{filename}`, `GET /`, an
unmatched request) and for every request answered with status 400. -/
theorem only_validated_upload_writes (request : Request) (env : Env) :
    (passesValidation request = false →
      (fetch request env).2.objects = env.SCHEDULER_DATA.objects) ∧
    (¬(request.path = "/upload" ∧ request.method = "POST") →
      (fetch request env).2.objects = env.SCHEDULER_DATA.objects) ∧
    ((fetch request env).1.status = 400 →
      (fetch request env).2.objects = env.SCHEDULER_DATA.objects) :=
  ⟨fun h => fetch_objects_of_unvalidated h env,
    fun h => fetch_objects_of_not_upload h env,
    fun h => by rw [fetch_status_400 request env h]⟩

/-- C18 at the refused upload of `evil.json`, at a download and at an upload with a missing
content, on a store that holds an object. -/
theorem only_validated_upload_writes_witness :
    (passesValidation (uploadRequest "evil.json" "[]") = false ∧
      (fetch (uploadRequest "evil.json" "[]") ⟨⟨foreignObjects, none, []⟩⟩).2.objects
        = foreignObjects) ∧
    (fetch (getRequest "/download/evil.json") ⟨⟨foreignObjects, none, []⟩⟩).2.objects
      = foreignObjects ∧
    ((fetch ⟨"POST", "/upload", .ok (.object [("filename", .string "tasks.json")])⟩
        ⟨⟨foreignObjects, none, []⟩⟩).1.status = 400 ∧
      (fetch ⟨"POST", "/upload", .ok (.object [("filename", .string "tasks.json")])⟩
        ⟨⟨foreignObjects, none, []⟩⟩).2.objects = foreignObjects) :=
  ⟨⟨by decide,
      (only_validated_upload_writes (uploadRequest "evil.json" "[]")
        ⟨⟨foreignObjects, none, []⟩⟩).1 (by decide)⟩,
    (only_validated_upload_writes (getRequest "/download/evil.json")
      ⟨⟨foreignObjects, none, []⟩⟩).2.1 (by decide),
    ⟨by decide,
      (only_validated_upload_writes
        ⟨"POST", "/upload", .ok (.object [("filename", .string "tasks.json")])⟩
        ⟨⟨foreignObjects, none, []⟩⟩).2.2 (by decide)⟩⟩

/-- C19. Frame of a successful upload: for every store state, every allow-listed filename `f`
and non-empty content `c`, after the upload of `f` with `c` every key other than `f` is
present in the store exactly when it was present before and maps to the same value as
before; on a store that does not fail the entry for `f` is the one created or replaced. -/
theorem upload_frame (request : Request) (env : Env) (f c : String)
    (h : uploadOf request = some (f, c)) (hf : f ∈ allowedFiles) (hc : c ≠ "") :
    (∀ k, k ≠ f →
      (fetch request env).2.objects.lookup k = env.SCHEDULER_DATA.objects.lookup k ∧
      (k ∈ (fetch request env).2.objects.keys ↔ k ∈ env.SCHEDULER_DATA.objects.keys)) ∧
    (env.SCHEDULER_DATA.fault = none →
      (fetch request env).2.objects.lookup f = some ⟨c, "application/json"⟩) := by
  have hlookup : ∀ k, k ≠ f →
      (fetch request env).2.objects.lookup k = env.SCHEDULER_DATA.objects.lookup k := by
    intro k hk
    cases h0 : env.SCHEDULER_DATA.fault with
    | none =>
      rw [fetch_upload_accept h hf hc env h0]
      exact AList.lookup_insert_ne hk
    | some m =>
      rw [fetch_upload_put_fault h hf hc env m h0]
  constructor
  · intro k hk
    refine ⟨hlookup k hk, ?_⟩
    rw [← AList.mem_keys, ← AList.mem_keys, ← AList.lookup_isSome, ← AList.lookup_isSome,
      hlookup k hk]
  · intro h0
    rw [fetch_upload_accept h hf hc env h0]
    exact AList.lookup_insert _

/-- C19 at the upload of `tasks.json` into a store that holds `evil.json`. -/
theorem upload_frame_witness :
    (uploadOf (uploadRequest "tasks.json" "[1]") = some ("tasks.json", "[1]") ∧
      "tasks.json" ∈ allowedFiles ∧ "[1]" ≠ "" ∧ "evil.json" ≠ "tasks.json") ∧
    (fetch (uploadRequest "tasks.json" "[1]") ⟨⟨foreignObjects, none, []⟩⟩).2.objects.lookup
      "evil.json" = foreignObjects.lookup "evil.json" ∧
    (fetch (uploadRequest "tasks.json" "[1]") ⟨⟨foreignObjects, none, []⟩⟩).2.objects.lookup
      "tasks.json" = some ⟨"[1]", "application/json"⟩ :=
  have h := upload_frame (uploadRequest "tasks.json" "[1]") ⟨⟨foreignObjects, none, []⟩⟩
    "tasks.json" "[1]" (by decide) (by decide) (by decide)
  ⟨⟨by decide, by decide, by decide, by decide⟩,
    (h.1 "evil.json" (by decide)).1, h.2 rfl⟩

/-- C20. The allow-list advertised by `GET /` agrees with the allow-list enforced by
`POST /upload`, two separate literals of the code: for every string `f`, on a store that does
not fail, `f` appears in the array `allowed_files` of the `GET /` response if and only if an
upload with filename `f` and a non-empty content is accepted with status 200, and a non-empty
`f` is absent from that array if and only if the upload is rejected with
`Invalid filename. Only scheduler JSON files allowed.`; both lists have exactly six pairwise
distinct entries. -/
theorem advertised_matches_enforced (root upload : Request) (env : Env) (f c : String)
    (hm : root.method = "GET") (hp : root.path = "/")
    (hu : uploadOf upload = some (f, c)) (hc : c ≠ "")
    (h0 : env.SCHEDULER_DATA.fault = none) :
    (f ∈ advertisedFiles (fetch root env).1 ↔ (fetch upload env).1.status = 200) ∧
    (f ≠ "" → (f ∉ advertisedFiles (fetch root env).1 ↔
      (fetch upload env).1 = ⟨400, jsonHeaders, .json (.object [("error",
        .string "Invalid filename. Only scheduler JSON files allowed.")])⟩)) ∧
    (advertisedFiles (fetch root env).1).length = 6 ∧
    (advertisedFiles (fetch root env).1).Nodup ∧
    allowedFiles.length = 6 ∧ allowedFiles.Nodup := by
  rw [advertisedFiles_root hm hp env]
  refine ⟨?_, ?_, rfl, by decide, rfl, by decide⟩
  · by_cases hf : f ∈ allowedFiles
    · rw [fetch_upload_accept hu hf hc env h0]
      exact ⟨fun _ => rfl, fun _ => hf⟩
    · by_cases hf0 : f = ""
      · subst hf0
        rw [fetch_of_upload hu env, uploadFields_empty_name]
        exact ⟨fun hin => absurd hin hf, fun hs => absurd hs (by simp)⟩
      · rw [fetch_of_upload hu env, uploadFields_reject hf0 hf hc env]
        exact ⟨fun hin => absurd hin hf, fun hs => absurd hs (by simp)⟩
  · intro hf0
    by_cases hf : f ∈ allowedFiles
    · rw [fetch_upload_accept hu hf hc env h0]
      refine ⟨fun hn => absurd hf hn, fun heq => ?_⟩
      have hstatus := congrArg Response.status heq
      exact absurd hstatus (by simp)
    · rw [fetch_of_upload hu env, uploadFields_reject hf0 hf hc env]
      exact ⟨fun _ => rfl, fun _ => hf⟩

/-- C20 at `tasks.json`, advertised and accepted, and at `evil.json`, neither. -/
theorem advertised_matches_enforced_witness :
    ("tasks.json" ∈ advertisedFiles (fetch (getRequest "/") ⟨⟨∅, none, []⟩⟩).1 ∧
      (fetch (uploadRequest "tasks.json" "[]") ⟨⟨∅, none, []⟩⟩).1.status = 200) ∧
    ("evil.json" ∉ advertisedFiles (fetch (getRequest "/") ⟨⟨∅, none, []⟩⟩).1 ∧
      (fetch (uploadRequest "evil.json" "[]") ⟨⟨∅, none, []⟩⟩).1.status ≠ 200) :=
  have h1 := advertised_matches_enforced (getRequest "/") (uploadRequest "tasks.json" "[]")
    ⟨⟨∅, none, []⟩⟩ "tasks.json" "[]" rfl rfl (by decide) (by decide) rfl
  have h2 := advertised_matches_enforced (getRequest "/") (uploadRequest "evil.json" "[]")
    ⟨⟨∅, none, []⟩⟩ "evil.json" "[]" rfl rfl (by decide) (by decide) rfl
  ⟨⟨by decide, h1.1.mp (by decide)⟩,
    ⟨by decide, fun hs => absurd (h2.1.mpr hs) (by decide)⟩⟩

end SchedulerSync
